import Mathlib

/-!
# picoclaw: launcher log buffer, QQ de-duplication, WhatsApp reconnect back-off

A shallow embedding of

* `cmd/picoclaw-launcher/internal/server/logbuffer.go` (`LogBuffer`),
* `cmd/picoclaw-launcher/internal/server/process.go` (`appendLogData`),
* `pkg/channels/qq.go` (`QQChannel.isDuplicate`),
* `pkg/channels/whatsapp_native/whatsapp_native.go` (`reconnectWithBackoff`),

followed by the properties proved about them.

Conventions.  Go's `int` is 64 bits wide on the platforms the launcher is built for; values
are `Int` and an operation whose operand is supplied by a caller goes through `wrap64`.
The counters `total` and `runID` grow by one per call, so `2^63` calls are needed before
`++` wraps; they are incremented without wrap-around.  A run-time panic is `none`.
A Go slice that may be `nil` is an `Option (List String)`, `none` being `nil`.
-/

namespace Picoclaw

/-! ## Machine integers -/

/-- Two's-complement wrap-around of a 64-bit signed integer operation. -/
def wrap64 (x : Int) : Int := (x + 2 ^ 63) % 2 ^ 64 - 2 ^ 63

/-- Go's `%` on integers: the remainder of the quotient truncated toward zero;
a zero divisor panics. -/
def goMod (a b : Int) : Option Int := if b = 0 then none else some (Int.tmod a b)

/-- Indexing `s[i]` of a Go slice with a run-time bound check. -/
def index (s : List String) (i : Int) : Option String :=
  if 0 ≤ i ∧ i < s.length then s[i.toNat]? else none

/-! ## `logbuffer.go` -/

/-- The fields of `LogBuffer` (the mutex apart). -/
structure LogBuffer where
  lines : List String
  cap : Int
  total : Int
  runID : Int
deriving DecidableEq, Repr

/-- What `LinesSince` returns: `(lines, total, runID)`. -/
structure LinesResult where
  lines : Option (List String)
  total : Int
  runID : Int
deriving DecidableEq, Repr

/-- The constructor `NewLogBuffer(capacity)`; `make([]string, 0, capacity)` panics when
`capacity < 0`. -/
def NewLogBuffer (capacity : Int) : Option LogBuffer :=
  if capacity < 0 then none
  else some { lines := [], cap := capacity, total := 0, runID := 0 }

/-- The method `(*LogBuffer).Append`. -/
def LogBuffer.Append (b : LogBuffer) (line : String) : Option LogBuffer :=
  if (b.lines.length : Int) < b.cap then
    some { b with lines := b.lines ++ [line], total := b.total + 1 }
  else
    match goMod b.total b.cap with
    | none => none
    | some i =>
      if 0 ≤ i ∧ i < b.lines.length then
        some { b with lines := b.lines.set i.toNat line, total := b.total + 1 }
      else none

/-- The method `(*LogBuffer).Reset`. -/
def LogBuffer.Reset (b : LogBuffer) : LogBuffer :=
  { b with lines := [], total := 0, runID := b.runID + 1 }

/-- The loop `for i := range newCount { result[i] = b.lines[(start+i)%b.cap] }`,
run for `i = from, from+1, ..., from+n-1`. -/
def ringCopy (b : LogBuffer) (start : Int) : Nat → Nat → Option (List String)
  | _, 0 => some []
  | i, n + 1 =>
    match goMod (start + i) b.cap with
    | none => none
    | some j =>
      match index b.lines j with
      | none => none
      | some x =>
        match ringCopy b start (i + 1) n with
        | none => none
        | some rest => some (x :: rest)

/-- The method `(*LogBuffer).LinesSince`. -/
def LogBuffer.LinesSince (b : LogBuffer) (offset : Int) : Option LinesResult :=
  let total := b.total
  let runID := b.runID
  if offset ≥ b.total then some ⟨none, total, runID⟩
  else
    let buffered : Int := b.lines.length
    let newCount0 := wrap64 (b.total - offset)
    let newCount := if newCount0 > buffered then buffered else newCount0
    -- `make([]string, newCount)` panics on a negative length
    if newCount < 0 then none
    else if b.total ≤ b.cap then
      -- `copy(result, b.lines[buffered-newCount:])`
      some ⟨some ((b.lines.drop (buffered - newCount).toNat).take newCount.toNat), total, runID⟩
    else
      match goMod (wrap64 (b.total - newCount)) b.cap with
      | none => none
      | some start =>
        match ringCopy b start 0 newCount.toNat with
        | none => none
        | some result => some ⟨some result, total, runID⟩

/-- The method `(*LogBuffer).RunID`. -/
def LogBuffer.RunID (b : LogBuffer) : Int := b.runID

/-- The method `(*LogBuffer).Total`. -/
def LogBuffer.Total (b : LogBuffer) : Int := b.total

/-- A call of one of the three methods that a client of the buffer can make. -/
inductive Op where
  | append (line : String)
  | reset
  | linesSince (offset : Int)
deriving DecidableEq, Repr

/-- The buffer after one call.  `LinesSince` only reads the fields (it holds the read lock),
so the buffer after it is the buffer before it, whatever it returns. -/
def LogBuffer.step (b : LogBuffer) : Op → Option LogBuffer
  | .append line => b.Append line
  | .reset => some b.Reset
  | .linesSince _ => some b

/-- The buffer after a sequence of calls, `none` if one of them panics. -/
def LogBuffer.run (b : LogBuffer) : List Op → Option LogBuffer
  | [] => some b
  | op :: ops =>
    match b.step op with
    | none => none
    | some b1 => b1.run ops

/-- The lines appended since construction or the most recent `Reset`, in append order:
the `a_0 .. a_{n-1}` of the current run. -/
def currentRun (ops : List Op) : List String :=
  ops.foldl (fun acc op =>
    match op with
    | .append line => acc ++ [line]
    | .reset => []
    | .linesSince _ => acc) []

/-- The number of `Reset` calls in a sequence of calls. -/
def countResets (ops : List Op) : Nat := ops.count Op.reset

/-- The number of `Append` calls made after the last `Reset` of a sequence of calls
(after the construction when there is none). -/
def appendsSinceReset (ops : List Op) : Nat :=
  ((ops.reverse.takeWhile (fun op => decide (op ≠ Op.reset))).filter
    (fun op => match op with | .append _ => true | _ => false)).length

/-- The ring invariant: the buffer of capacity `c` holds the last `min n c` of the lines `as`
appended in the current run, line `i` in slot `i mod c`. -/
def RingInv (c : Nat) (b : LogBuffer) (as : List String) : Prop :=
  b.cap = c ∧ 1 ≤ c ∧ b.total = as.length ∧ b.lines.length = min as.length c ∧
  ∀ i, i < as.length → as.length ≤ i + c → b.lines[i % c]? = as[i]?

/-! ## `process.go`: `appendLogData` -/

/-- Go's `strconv.Atoi` on a 64-bit platform: an optional sign, then one or more decimal
digits, the value within the range of `int`; anything else is an error. -/
def atoi (s : String) : Option Int :=
  let cs := s.toList
  let neg := cs.head? = some '-'
  let ds := if cs.head? = some '-' ∨ cs.head? = some '+' then cs.tail else cs
  if ds = [] ∨ ¬ ds.all Char.isDigit then none
  else
    let n : Int := ds.foldl (fun a c => 10 * a + ((c.toNat - 48 : Nat) : Int)) 0
    let v := if neg then -n else n
    if v < -2 ^ 63 ∨ v ≥ 2 ^ 63 then none else some v

/-- The four entries that `appendLogData` writes into the response map. -/
structure LogData where
  logs : List String
  log_total : Int
  log_run_id : Int
  log_source : String
deriving DecidableEq, Repr

/-- The function `appendLogData`, on the raw values of the query parameters `log_offset` and
`log_run_id` (`URL.Query().Get` gives `""` for an absent parameter).  The function reads the
global `gatewayLogs` twice, each time in a critical section of its own: `logsAtRunID` is the
buffer when `gatewayLogs.RunID()` runs and `logsAtLinesSince` is the buffer when
`gatewayLogs.LinesSince(offset)` runs.  Between the two the lock is free, and
`handleStartGateway` (`Reset`) and `scanPipe` (`Append`) may have changed the buffer; when
nothing ran in between, the two buffers are the same. -/
def appendLogData (logsAtRunID logsAtLinesSince : LogBuffer) (logOffset logRunId : String) :
    Option LogData :=
  let clientOffset : Int :=
    if logOffset ≠ "" then (match atoi logOffset with | some n => n | none => 0) else 0
  let clientRunID : Int :=
    if logRunId ≠ "" then (match atoi logRunId with | some n => n | none => -1) else -1
  let runID := logsAtRunID.RunID
  if runID = 0 then some ⟨[], 0, 0, "none"⟩
  else
    let offset := if clientRunID ≠ runID then 0 else clientOffset
    match logsAtLinesSince.LinesSince offset with
    | none => none
    | some r =>
      let lines := match r.lines with | none => [] | some ls => ls
      some ⟨lines, r.total, r.runID, "launcher"⟩

/-- A query parameter as the status endpoint reads it: the integer it spells, or the default
when it is absent or is not an integer. -/
def queryInt (v : String) (dflt : Int) : Int := (atoi v).getD dflt

/-- The response entries built from what `LinesSince` returned (`nil` shown as no lines). -/
def logDataOf (r : LinesResult) : LogData :=
  ⟨r.lines.getD [], r.total, r.runID, "launcher"⟩

/-! ## `qq.go`: `isDuplicate` -/

/-- The field `processedIDs` of `QQChannel`.  It is a `map[string]bool` that `NewQQChannel`
creates empty and in which every write stores `true`, so it is the set of its keys. -/
structure QQChannel where
  processedIDs : Finset String
deriving DecidableEq

/-- The constructor `NewQQChannel`, as far as `processedIDs` goes. -/
def NewQQChannel : QQChannel := ⟨∅⟩

/-- The clean-up loop of `isDuplicate`:
`for id := range m { if count >= 5000 { break }; delete(m, id); count++ }`,
where `order` lists the keys in the order in which `range` yields them. -/
def evictLoop (m : Finset String) : List String → Nat → Finset String
  | [], _ => m
  | id :: rest, count => if count ≥ 5000 then m else evictLoop (m.erase id) rest (count + 1)

/-- The method `(*QQChannel).isDuplicate`: the result and the channel after the call.  Go leaves the
iteration order of a map unspecified; `order` is the order the run time picks for this call. -/
def QQChannel.isDuplicate (c : QQChannel) (messageID : String) (order : List String) :
    Bool × QQChannel :=
  if messageID ∈ c.processedIDs then (true, c)
  else
    let m := insert messageID c.processedIDs
    if m.card > 10000 then (false, ⟨evictLoop m order 0⟩) else (false, ⟨m⟩)

/-- A possible iteration order of `range` over the map `m`: every key once. -/
def IsRangeOrder (m : Finset String) (order : List String) : Prop :=
  order.Nodup ∧ order.toFinset = m

/-- The channel after a sequence of `isDuplicate` calls, each with its message id and the
iteration order of that call. -/
def QQChannel.deliver (c : QQChannel) : List (String × List String) → QQChannel
  | [] => c
  | (id, order) :: rest => ((c.isDuplicate id order).2).deliver rest

/-- Every call of the sequence whose clean-up loop runs iterates over the map in a possible
order. -/
def RangeOrders (c : QQChannel) : List (String × List String) → Prop
  | [] => True
  | (id, order) :: rest =>
    (id ∉ c.processedIDs → (insert id c.processedIDs).card > 10000 →
        IsRangeOrder (insert id c.processedIDs) order) ∧
      RangeOrders (c.isDuplicate id order).2 rest

/-- The message id made of `i + 1` letters `a`. -/
def msgId (i : Nat) : String := String.mk (List.replicate (i + 1) 'a')

/-- Ten thousand different message ids. -/
@[irreducible] def seenBefore : List String := (List.range 10000).map msgId

/-! ## `whatsapp_native.go`: `reconnectWithBackoff` -/

/-- One second as a `time.Duration` (nanoseconds). -/
def second : Int := 1000000000

/-- The constant `reconnectInitial = 5 * time.Second`. -/
def reconnectInitial : Int := 5 * second

/-- The constant `reconnectMax = 5 * time.Minute`. -/
def reconnectMax : Int := 5 * (60 * second)

/-- The constant `reconnectMultiplier = 2.0`. -/
def reconnectMultiplier : Int := 2

/-- The update of `backoff` after a completed wait.  The source computes
`time.Duration(float64(backoff) * reconnectMultiplier)`; the product is taken only for
`backoff < reconnectMax`, where the conversion to `float64` and the doubling are exact. -/
def nextBackoff (backoff : Int) : Int :=
  if backoff < reconnectMax then
    let next := backoff * reconnectMultiplier
    if next > reconnectMax then reconnectMax else next
  else backoff

/-- What one iteration of the loop of `reconnectWithBackoff` meets. -/
structure Attempt where
  /-- The channel `runCtx.Done()` is ready when the iteration starts. -/
  cancelledBefore : Bool
  /-- The field `c.client` is `nil`. -/
  clientNil : Bool
  /-- The call `client.Connect()` returns an error. -/
  connectFails : Bool
  /-- The channel `runCtx.Done()` is ready before `time.After(backoff)` fires. -/
  cancelledInWait : Bool
deriving DecidableEq, Repr

/-- The loop of `reconnectWithBackoff` over the iterations it meets: the waits that it
completes, in order. -/
def reconnectLoop (backoff : Int) : List Attempt → List Int
  | [] => []
  | a :: rest =>
    if a.cancelledBefore then []
    else if a.clientNil then []
    else if !a.connectFails then []
    else if a.cancelledInWait then []
    else backoff :: reconnectLoop (nextBackoff backoff) rest

/-- The method `reconnectWithBackoff`: the loop started with `backoff := reconnectInitial`. -/
def reconnectWithBackoff (env : List Attempt) : List Int := reconnectLoop reconnectInitial env

/-- An iteration in which `Connect` fails and the run context is not cancelled. -/
def failedAttempt : Attempt := ⟨false, false, true, false⟩

/-- The times at which the attempts start, the first one at `0`, when an attempt itself
takes no time: the running sums of the waits. -/
def attemptStarts (waits : List Int) : List Int := List.scanl (fun t w => t + w) 0 waits

/-! ## `whatsapp_native.go`: lifecycle flags, `Send` -/

/-- The fields of `WhatsAppNativeChannel` that the critical sections of `reconnectMu` read and
write, together with the background goroutines that are running. -/
structure WAState where
  /-- The flag `stopping`. -/
  stopping : Bool
  /-- The flag `reconnecting`. -/
  reconnecting : Bool
  /-- The counter of the WaitGroup `wg`. -/
  wg : Nat
  /-- The number of goroutines that are running `reconnectWithBackoff`. -/
  loops : Nat
  /-- The number of goroutines that are running the QR handler of `Start`. -/
  qrHandlers : Nat
deriving DecidableEq, Repr

/-- The channel that `NewWhatsAppNativeChannel` returns: every field has its zero value. -/
def WAState.init : WAState := ⟨false, false, 0, 0, 0⟩

/-- The atomic steps of the channel's lifecycle, a critical section of `reconnectMu` each. -/
inductive WAEvent where
  /-- The first critical section of `Start`: `stopping.Store(false); reconnecting = false`. -/
  | startReset
  /-- The critical section of the QR branch of `Start`, with the `go` statement after it. -/
  | startQR
  /-- The critical section of `Stop`: `stopping.Store(true)`. -/
  | stopMark
  /-- The critical section of `eventHandler` on `*events.Disconnected`, with the `go`
  statement after it. -/
  | disconnected
  /-- The end of a `reconnectWithBackoff` goroutine: the deferred critical section
  `reconnecting = false`, then the deferred `wg.Done()`. -/
  | loopExit
  /-- The end of a QR handler goroutine: the deferred `wg.Done()`. -/
  | qrExit
deriving DecidableEq, Repr

/-- The state after one atomic step.  An exit step happens only when such a goroutine is
running; without one the state is left as it is. -/
def WAState.step (s : WAState) : WAEvent → WAState
  | .startReset => { s with stopping := false, reconnecting := false }
  | .startQR =>
    if s.stopping then s
    else { s with wg := s.wg + 1, qrHandlers := s.qrHandlers + 1 }
  | .stopMark => { s with stopping := true }
  | .disconnected =>
    if s.reconnecting then s
    else if s.stopping then s
    else { s with reconnecting := true, wg := s.wg + 1, loops := s.loops + 1 }
  | .loopExit =>
    if s.loops = 0 then s
    else { s with reconnecting := false, loops := s.loops - 1, wg := s.wg - 1 }
  | .qrExit =>
    if s.qrHandlers = 0 then s
    else { s with qrHandlers := s.qrHandlers - 1, wg := s.wg - 1 }

/-- The state after a sequence of atomic steps. -/
def WAState.run (s : WAState) : List WAEvent → WAState
  | [] => s
  | e :: es => (s.step e).run es

/-- The sentinel errors of package `channels` that `Send` uses. -/
inductive Sentinel where
  | ErrNotRunning
  | ErrTemporary
deriving DecidableEq, Repr

/-- An error value: a sentinel, the error of a cancelled context, an error made by
`fmt.Errorf` with `%w` around another error, or an error with a message only. -/
inductive GoError where
  | sentinel (s : Sentinel)
  | ctxErr
  | wrap (msg : String) (inner : GoError)
  | plain (msg : String)
deriving DecidableEq, Repr

/-- Go's `errors.Is(err, target)` for a sentinel target. -/
def GoError.is : GoError → Sentinel → Bool
  | .sentinel s, t => s == t
  | .ctxErr, _ => false
  | .wrap _ inner, t => inner.is t
  | .plain _, _ => false

/-- Go's `unicode.IsSpace`. -/
def isSpace (c : Char) : Bool :=
  let n := c.toNat
  (9 ≤ n && n ≤ 13) || n == 32 || n == 0x85 || n == 0xA0 || n == 0x1680 ||
    (0x2000 ≤ n && n ≤ 0x200a) || n == 0x2028 || n == 0x2029 || n == 0x202f ||
    n == 0x205f || n == 0x3000

/-- Go's `strings.TrimSpace`. -/
def TrimSpace (s : String) : String :=
  String.mk ((s.toList.dropWhile isSpace).reverse.dropWhile isSpace).reverse

/-- The type `types.JID` of whatsmeow, as far as `parseJID` builds it. -/
structure JID where
  User : String
  Server : String
deriving DecidableEq, Repr

/-- The constant `types.DefaultUserServer` of whatsmeow. -/
def DefaultUserServer : String := "s.whatsapp.net"

/-- The function `parseJID`; `libParseJID` is whatsmeow's `types.ParseJID`. -/
def parseJID (libParseJID : String → Except String JID) (s : String) : Except String JID :=
  let s := TrimSpace s
  if s = "" then .error "empty chat id"
  else if s.toList.contains '@' then libParseJID s
  else .ok ⟨s, DefaultUserServer⟩

/-- What `Send` reads of the whatsmeow client. -/
structure WAClient where
  /-- The result of `client.IsConnected()`. -/
  IsConnected : Bool
  /-- The field `client.Store.ID`, `none` for `nil`. -/
  StoreID : Option JID
deriving DecidableEq, Repr

/-- The fields of `bus.OutboundMessage` that `Send` reads. -/
structure OutboundMessage where
  ChatID : String
  Content : String
deriving DecidableEq, Repr

/-- What a call of `Send` does: the error it returns (`none` for `nil`) and the call of
`client.SendMessage` it makes, if any, with the recipient and the text. -/
structure SendOutcome where
  err : Option GoError
  sent : Option (JID × String)
deriving DecidableEq, Repr

/-- The method `(*WhatsAppNativeChannel).Send`.  The inputs: `running` is `c.IsRunning()`,
`ctxDone` tells whether `ctx.Done()` is ready, `client` is `c.client`, and
`sendMessageFails` tells whether `client.SendMessage` returns an error. -/
def Send (running ctxDone : Bool) (client : Option WAClient) (msg : OutboundMessage)
    (libParseJID : String → Except String JID) (sendMessageFails : Bool) : SendOutcome :=
  if !running then ⟨some (.sentinel .ErrNotRunning), none⟩
  else if ctxDone then ⟨some .ctxErr, none⟩
  else
    match client with
    | none => ⟨some (.wrap "whatsapp connection not established" (.sentinel .ErrTemporary)), none⟩
    | some cl =>
      if !cl.IsConnected then
        ⟨some (.wrap "whatsapp connection not established" (.sentinel .ErrTemporary)), none⟩
      else if cl.StoreID = none then
        ⟨some (.wrap "whatsapp not yet paired (QR login pending)" (.sentinel .ErrTemporary)),
          none⟩
      else
        match parseJID libParseJID msg.ChatID with
        | .error e => ⟨some (.wrap ("invalid chat id " ++ msg.ChatID) (.plain e)), none⟩
        | .ok jid =>
          if sendMessageFails then
            ⟨some (.wrap "whatsapp send" (.sentinel .ErrTemporary)), some (jid, msg.Content)⟩
          else ⟨none, some (jid, msg.Content)⟩

/-! ## `auth_config.go` -/

/-- Go's `strings.HasPrefix`. -/
def HasPrefix (s pre : String) : Bool := pre.toList.isPrefixOf s.toList

/-- The function `isOpenAIModel`. -/
def isOpenAIModel (model : String) : Bool :=
  model == "openai" || HasPrefix model "openai/"

/-- The function `isAnthropicModel`. -/
def isAnthropicModel (model : String) : Bool :=
  model == "anthropic" || HasPrefix model "anthropic/"

/-- The function `isAntigravityModel`. -/
def isAntigravityModel (model : String) : Bool :=
  model == "antigravity" || model == "google-antigravity" ||
    HasPrefix model "antigravity/" || HasPrefix model "google-antigravity/"

/-- The struct `config.ModelConfig`.  The launcher reads and writes `ModelName`, `Model` and
`AuthMethod`; `Rest` stands for the other fields, empty when they have their zero values. -/
structure ModelConfig where
  ModelName : String
  Model : String
  AuthMethod : String
  Rest : List (String × String)
deriving DecidableEq, Repr

/-- The entry of one provider in `config.ProvidersConfig`; `Rest` stands for the fields other
than `AuthMethod`. -/
structure ProviderConfig where
  AuthMethod : String
  Rest : List (String × String)
deriving DecidableEq, Repr

/-- The providers of `config.ProvidersConfig` that the launcher writes; `Rest` stands for the
other providers. -/
structure ProvidersConfig where
  OpenAI : ProviderConfig
  Anthropic : ProviderConfig
  Antigravity : ProviderConfig
  Rest : List (String × ProviderConfig)
deriving DecidableEq, Repr

/-- The struct `config.Config`, as far as the launcher reads and writes it;
`AgentsDefaultsModelName` is `Agents.Defaults.ModelName`. -/
structure Config where
  Providers : ProvidersConfig
  ModelList : List ModelConfig
  AgentsDefaultsModelName : String
deriving DecidableEq, Repr

/-- The loop of `updateConfigAfterLogin` over `cfg.ModelList`: the first entry whose `Model`
satisfies `owned` gets `AuthMethod = method`, and the loop breaks; the result comes with
`found`. -/
def markFirst (owned : String → Bool) (method : String) :
    List ModelConfig → List ModelConfig × Bool
  | [] => ([], false)
  | m :: ms =>
    if owned m.Model then ({ m with AuthMethod := method } :: ms, true)
    else ((m :: (markFirst owned method ms).1), (markFirst owned method ms).2)

/-- One `case` of the `switch` of `updateConfigAfterLogin`, after the provider's own
`AuthMethod` is set: the loop, the `append` when nothing was found, and the default model. -/
def loginModels (owned : String → Bool) (method modelName model : String) (cfg : Config) :
    Config :=
  let r := markFirst owned method cfg.ModelList
  let list := if !r.2 then r.1 ++ [⟨modelName, model, method, []⟩] else r.1
  { cfg with ModelList := list, AgentsDefaultsModelName := modelName }

/-- The function `updateConfigAfterLogin`: the configuration that it saves, from the one that
it has loaded.  The credential argument is not read. -/
def updateConfigAfterLogin (cfg : Config) (provider : String) : Config :=
  if provider = "openai" then
    loginModels isOpenAIModel "oauth" "gpt-5.2" "openai/gpt-5.2"
      { cfg with Providers := { cfg.Providers with
          OpenAI := { cfg.Providers.OpenAI with AuthMethod := "oauth" } } }
  else if provider = "anthropic" then
    loginModels isAnthropicModel "token" "claude-sonnet-4.6" "anthropic/claude-sonnet-4.6"
      { cfg with Providers := { cfg.Providers with
          Anthropic := { cfg.Providers.Anthropic with AuthMethod := "token" } } }
  else if provider = "google-antigravity" then
    loginModels isAntigravityModel "oauth" "gemini-flash" "antigravity/gemini-3-flash"
      { cfg with Providers := { cfg.Providers with
          Antigravity := { cfg.Providers.Antigravity with AuthMethod := "oauth" } } }
  else cfg

/-- The body of the first loop of `clearAuthMethodInConfig` for one entry. -/
def clearEntry (provider : String) (m : ModelConfig) : ModelConfig :=
  if provider = "openai" then
    (if isOpenAIModel m.Model then { m with AuthMethod := "" } else m)
  else if provider = "anthropic" then
    (if isAnthropicModel m.Model then { m with AuthMethod := "" } else m)
  else if provider = "google-antigravity" ∨ provider = "antigravity" then
    (if isAntigravityModel m.Model then { m with AuthMethod := "" } else m)
  else m

/-- The function `clearAuthMethodInConfig`: the configuration that it saves, from the one
that it has loaded. -/
def clearAuthMethodInConfig (cfg : Config) (provider : String) : Config :=
  let list := cfg.ModelList.map (clearEntry provider)
  let providers :=
    if provider = "openai" then
      { cfg.Providers with OpenAI := { cfg.Providers.OpenAI with AuthMethod := "" } }
    else if provider = "anthropic" then
      { cfg.Providers with Anthropic := { cfg.Providers.Anthropic with AuthMethod := "" } }
    else if provider = "google-antigravity" ∨ provider = "antigravity" then
      { cfg.Providers with Antigravity := { cfg.Providers.Antigravity with AuthMethod := "" } }
    else cfg.Providers
  { cfg with ModelList := list, Providers := providers }

/-- The models that a provider owns, in the words of the launcher: what the helper for that
provider accepts. -/
def ownedBy (provider : String) (model : String) : Bool :=
  if provider = "openai" then isOpenAIModel model
  else if provider = "anthropic" then isAnthropicModel model
  else if provider = "google-antigravity" ∨ provider = "antigravity" then
    isAntigravityModel model
  else false

/-- The `auth_method` that a login with a provider records. -/
def loginMethod (provider : String) : String :=
  if provider = "anthropic" then "token" else "oauth"

/-- The default entry that a login with a provider adds to `model_list`. -/
def defaultEntry (provider : String) : ModelConfig :=
  if provider = "openai" then ⟨"gpt-5.2", "openai/gpt-5.2", "oauth", []⟩
  else if provider = "anthropic" then
    ⟨"claude-sonnet-4.6", "anthropic/claude-sonnet-4.6", "token", []⟩
  else ⟨"gemini-flash", "antigravity/gemini-3-flash", "oauth", []⟩

/-- The `auth_method` of a provider's own entry in the configuration. -/
def providerAuthMethod (cfg : Config) (provider : String) : String :=
  if provider = "openai" then cfg.Providers.OpenAI.AuthMethod
  else if provider = "anthropic" then cfg.Providers.Anthropic.AuthMethod
  else cfg.Providers.Antigravity.AuthMethod

/-! ## `auth_handlers.go` -/

/-- The struct `auth.AuthCredential`, as far as the handlers read and write it. -/
structure AuthCredential where
  AccessToken : String
  Provider : String
  AuthMethod : String
  Email : String
  ProjectID : String
  AccountID : String
deriving DecidableEq, Repr

/-- The struct `oauthSession`; `CodeVerifier` is `PKCE.CodeVerifier` and `OAuthCfg` stands
for the provider configuration. -/
structure oauthSession where
  Provider : String
  CodeVerifier : String
  State : String
  RedirectURI : String
  OAuthCfg : String
  ConfigPath : String
deriving DecidableEq, Repr

/-- The map `oauthSessions`, keyed by state. -/
abbrev SessionMap := String → Option oauthSession

/-- Go's `delete(m, key)`. -/
def SessionMap.delete (m : SessionMap) (key : String) : SessionMap :=
  fun k => if k = key then none else m k

/-- The calls that `handleOAuthCallback` makes outside the launcher, with their results. -/
structure AuthEnv where
  /-- The call `auth.ExchangeCodeForTokens(cfg, code, verifier, redirectURI)`. -/
  ExchangeCodeForTokens : String → String → String → String → Except String AuthCredential
  /-- The call `fetchGoogleUserEmail(accessToken)`. -/
  fetchGoogleUserEmail : String → Except String String
  /-- The call `providers.FetchAntigravityProjectID(accessToken)`. -/
  FetchAntigravityProjectID : String → Except String String
  /-- The call `auth.SetCredential(provider, cred)`: the message of its error, if any. -/
  SetCredential : String → AuthCredential → Option String

/-- The page that `handleOAuthCallback` writes. -/
inductive CallbackPage where
  | invalidState
  | authFailed (msg : String)
  | saveFailed (msg : String)
  | success
deriving DecidableEq, Repr

/-- What a call of `handleOAuthCallback` does: the HTTP status and the page of the answer,
the session map after the call, the token exchange it has asked for (session and code), the
credential it has passed to `SetCredential`, and the configuration update it has made
(path and provider). -/
structure CallbackResult where
  status : Nat
  page : CallbackPage
  sessions : SessionMap
  exchanged : Option (oauthSession × String)
  setCredential : Option (String × AuthCredential)
  configUpdated : Option (String × String)

/-- The function `handleOAuthCallback`, on the session map and the query parameters `state`,
`code` and `error`. -/
def handleOAuthCallback (sessions : SessionMap) (state code errMsg : String) (env : AuthEnv) :
    CallbackResult :=
  match sessions state with
  | none => ⟨400, .invalidState, sessions, none, none, none⟩
  | some session =>
    let sessions1 := sessions.delete state
    if code = "" then ⟨200, .authFailed errMsg, sessions1, none, none, none⟩
    else
      match env.ExchangeCodeForTokens session.OAuthCfg code session.CodeVerifier
          session.RedirectURI with
      | .error e => ⟨200, .authFailed e, sessions1, some (session, code), none, none⟩
      | .ok cred0 =>
        let cred1 := { cred0 with Provider := session.Provider }
        let cred2 :=
          if session.Provider = "google-antigravity" then
            let c1 := match env.fetchGoogleUserEmail cred1.AccessToken with
              | .ok email => { cred1 with Email := email }
              | .error _ => cred1
            match env.FetchAntigravityProjectID c1.AccessToken with
            | .ok projectID => { c1 with ProjectID := projectID }
            | .error _ => c1
          else cred1
        match env.SetCredential session.Provider cred2 with
        | some e =>
          ⟨200, .saveFailed e, sessions1, some (session, code),
            some (session.Provider, cred2), none⟩
        | none =>
          ⟨200, .success, sessions1, some (session, code), some (session.Provider, cred2),
            some (session.ConfigPath, session.Provider)⟩

/-- The struct `auth.DeviceCodeInfo`. -/
structure DeviceCodeInfo where
  DeviceAuthID : String
  UserCode : String
  VerifyURL : String
  Interval : Int
deriving DecidableEq, Repr

/-- The struct `deviceCodeSession` (the mutex apart); `Info` points to the device code that
`RequestDeviceCode` returned. -/
structure deviceCodeSession where
  Provider : String
  Info : DeviceCodeInfo
  OAuthCfg : String
  ConfigPath : String
  Status : String
  Error : String
  Done : Bool
deriving DecidableEq, Repr

/-- The JSON object with which `handleOpenAILogin` answers. -/
structure LoginResponse where
  status : String
  device_url : String
  user_code : String
  message : String
deriving DecidableEq, Repr

/-- What a call of `handleOpenAILogin` does: the HTTP status, the JSON answer (`none` when
the answer is an error text), the variable `activeDeviceSession` after the call, whether
`auth.RequestDeviceCode` was called, and the session for which a polling goroutine was
started. -/
structure LoginResult where
  httpStatus : Nat
  response : Option LoginResponse
  activeDeviceSession : Option deviceCodeSession
  requestedDeviceCode : Bool
  pollerStarted : Option deviceCodeSession
deriving DecidableEq, Repr

/-- The function `handleOpenAILogin`, on the variable `activeDeviceSession`; `oauthCfg` is
`auth.OpenAIOAuthConfig()` and `requestDeviceCode` is the result that
`auth.RequestDeviceCode` gives when it is called. -/
def handleOpenAILogin (active : Option deviceCodeSession) (configPath oauthCfg : String)
    (requestDeviceCode : Except String DeviceCodeInfo) : LoginResult :=
  let pending : Option deviceCodeSession :=
    match active with
    | some s => if !s.Done then some s else none
    | none => none
  match pending with
  | some s =>
    ⟨200, some ⟨"pending", s.Info.VerifyURL, s.Info.UserCode,
      "Device code flow already in progress. Enter the code in your browser."⟩,
      active, false, none⟩
  | none =>
    match requestDeviceCode with
    | .error _ => ⟨500, none, active, true, none⟩
    | .ok info =>
      let session : deviceCodeSession :=
        ⟨"openai", info, oauthCfg, configPath, "pending", "", false⟩
      ⟨200, some ⟨"pending", info.VerifyURL, info.UserCode,
        "Open the URL and enter the code to authenticate."⟩,
        some session, true, some session⟩

/-! ## `edit.go`: `replaceEditContent` -/

/-- Go's `strings.Index` on texts taken as lists of characters: the position of the first
instance of `substr` in `s`, `none` for `-1`. -/
def Index (s substr : List Char) : Option Nat :=
  match s with
  | [] => if substr.isPrefixOf [] then some 0 else none
  | c :: t => if substr.isPrefixOf (c :: t) then some 0 else (Index t substr).map (· + 1)

/-- Go's `strings.Contains`: `Index(s, substr) >= 0`. -/
def Contains (s substr : List Char) : Bool := (Index s substr).isSome

/-- The loop of Go's `strings.Count` for a non-empty `substr`:
`for { i := Index(s, substr); if i == -1 { return n }; n++; s = s[i+len(substr):] }`,
run for at most `fuel` rounds. -/
def countLoop (substr : List Char) : Nat → List Char → Nat
  | 0, _ => 0
  | fuel + 1, s =>
    match Index s substr with
    | none => 0
    | some i => 1 + countLoop substr fuel (s.drop (i + substr.length))

/-- Go's `strings.Count`: the number of non-overlapping instances of `substr` in `s`, and the
number of characters of `s` plus one for an empty `substr`.  Every round of the loop shortens
`s`, so `s.length + 1` rounds are enough. -/
def Count (s substr : List Char) : Nat :=
  if substr = [] then s.length + 1 else countLoop substr (s.length + 1) s

/-- The loop of Go's `strings.Replace`, from round `i` on and for `n` more rounds, on the
rest `s[start:]` of the text: each round writes the text before the next instance of `old`
and then `new`.  `Replace` runs it for at most `Count(s, old)` rounds, so an instance is
found in every round. -/
def replaceLoop (old new : List Char) : Nat → Nat → List Char → List Char
  | _, 0, rest => rest
  | i, n + 1, rest =>
    let j :=
      if old = [] then (if i > 0 then min 1 rest.length else 0)
      else (Index rest old).getD 0
    rest.take j ++ new ++ replaceLoop old new (i + 1) n (rest.drop (j + old.length))

/-- Go's `strings.Replace(s, old, new, n)`. -/
def Replace (s old new : List Char) (n : Int) : List Char :=
  if old = new ∨ n = 0 then s
  else
    let m := Count s old
    if m = 0 then s
    else
      let n1 : Int := if n < 0 ∨ (m : Int) < n then (m : Int) else n
      replaceLoop old new 0 n1.toNat s

/-- The function `replaceEditContent`; a file's content is taken as text. -/
def replaceEditContent (content oldText newText : String) : Except String String :=
  let contentStr := content.toList
  if !Contains contentStr oldText.toList then
    .error "old_text not found in file. Make sure it matches exactly"
  else
    let count := Count contentStr oldText.toList
    if count > 1 then
      .error ("old_text appears " ++ toString count ++
        " times. Please provide more context to make it unique")
    else .ok (String.mk (Replace contentStr oldText.toList newText.toList 1))

/-- An instance of `substr` starts at position `i` of `s`. -/
def occursAt (s substr : List Char) (i : Nat) : Bool :=
  decide (i + substr.length ≤ s.length) && substr.isPrefixOf (s.drop i)

/-! ## `migrate/internal`: `planFileCopy` -/

/-- The type `ActionType` with its constants. -/
inductive ActionType where
  | ActionCopy
  | ActionSkip
  | ActionBackup
  | ActionConvertConfig
  | ActionCreateDir
  | ActionMergeConfig
deriving DecidableEq, Repr

/-- The struct `Action`; `Typ` is its field `Type`. -/
structure Action where
  Typ : ActionType
  Source : String
  Target : String
  Description : String
deriving DecidableEq, Repr

/-- What `os.Stat` returns for a path, as far as `planFileCopy` tells the results apart:
no error, an error for which `os.IsNotExist` holds, or another error. -/
inductive StatResult where
  | ok
  | notExist
  | otherError
deriving DecidableEq, Repr

/-- The function `planFileCopy`; `stat` gives the result of `os.Stat` for each path. -/
def planFileCopy (stat : String → StatResult) (src dst : String) (force : Bool) : Action :=
  if stat src = .notExist then
    ⟨.ActionSkip, src, dst, "source file not found"⟩
  else if stat dst = .ok ∧ !force then
    ⟨.ActionBackup, src, dst, "destination exists, will backup and overwrite"⟩
  else ⟨.ActionCopy, src, dst, "copy file"⟩

/-! ## `migrate/sources/openclaw` -/

/-- The table `providerMapping`. -/
def providerMapping : List (String × String) :=
  [("anthropic", "anthropic"), ("claude", "anthropic"), ("openai", "openai"),
    ("gpt", "openai"), ("groq", "groq"), ("ollama", "ollama"), ("openrouter", "openrouter"),
    ("deepseek", "deepseek"), ("together", "together"), ("mistral", "mistral"),
    ("fireworks", "fireworks"), ("google", "google"), ("gemini", "google"), ("xai", "xai"),
    ("grok", "xai"), ("cerebras", "cerebras"), ("sambanova", "sambanova")]

/-- The function `mapProvider`; `ToLower` is Go's `strings.ToLower`. -/
def mapProvider (ToLower : String → String) (provider : String) : String :=
  match providerMapping.lookup (ToLower provider) with
  | some mapped => mapped
  | none => ToLower provider

/-- Go's `strings.Split(s, sep)` for a separator of one character: the pieces of `s` between
the instances of `sep`. -/
def Split (sep : Char) : List Char → List (List Char)
  | [] => [[]]
  | c :: t =>
    if c = sep then [] :: Split sep t
    else
      match Split sep t with
      | [] => [[c]]
      | piece :: pieces => (c :: piece) :: pieces

/-- The struct `OpenClawAgentModel`. -/
structure OpenClawAgentModel where
  Simple : String
  Primary : Option String
  Fallbacks : List String
deriving DecidableEq, Repr

/-- The method `(*OpenClawAgentModel).GetPrimary`. -/
def OpenClawAgentModel.GetPrimary (m : OpenClawAgentModel) : String :=
  if m.Simple ≠ "" then m.Simple
  else
    match m.Primary with
    | some p => p
    | none => ""

/-- The struct `OpenClawAgentDefaults`, as far as the conversion reads it. -/
structure OpenClawAgentDefaults where
  Model : Option OpenClawAgentModel
  Workspace : Option String
deriving DecidableEq, Repr

/-- The struct `OpenClawAgents`, as far as the conversion of the defaults reads it. -/
structure OpenClawAgents where
  Defaults : Option OpenClawAgentDefaults
deriving DecidableEq, Repr

/-- The struct `OpenClawTelegramConfig`, as far as the conversion reads it. -/
structure OpenClawTelegramConfig where
  BotToken : Option String
  AllowFrom : List String
  Enabled : Option Bool
deriving DecidableEq, Repr

/-- The struct `OpenClawDiscordConfig`, as far as the conversion reads it. -/
structure OpenClawDiscordConfig where
  Token : Option String
  AllowFrom : List String
  Enabled : Option Bool
deriving DecidableEq, Repr

/-- The struct `OpenClawSlackConfig`, as far as the conversion reads it. -/
structure OpenClawSlackConfig where
  BotToken : Option String
  AppToken : Option String
  AllowFrom : List String
  Enabled : Option Bool
deriving DecidableEq, Repr

/-- The struct `OpenClawWhatsAppConfig`, as far as the conversion reads it. -/
structure OpenClawWhatsAppConfig where
  AllowFrom : List String
  Enabled : Option Bool
  BridgeURL : Option String
deriving DecidableEq, Repr

/-- The struct `OpenClawFeishuConfig`, as far as the conversion reads it. -/
structure OpenClawFeishuConfig where
  AppID : Option String
  AppSecret : Option String
  Enabled : Option Bool
  VerificationToken : Option String
  EncryptKey : Option String
  AllowFrom : List String
deriving DecidableEq, Repr

/-- The struct `OpenClawQQConfig`, as far as the conversion could read it. -/
structure OpenClawQQConfig where
  AppID : Option String
  AppSecret : Option String
  AllowFrom : List String
  Enabled : Option Bool
deriving DecidableEq, Repr

/-- The struct `OpenClawDingTalkConfig`, as far as the conversion could read it. -/
structure OpenClawDingTalkConfig where
  AppID : Option String
  AppSecret : Option String
  AllowFrom : List String
  Enabled : Option Bool
deriving DecidableEq, Repr

/-- The struct `OpenClawMaixCamConfig`, as far as the conversion could read it. -/
structure OpenClawMaixCamConfig where
  Host : Option String
  Port : Option Int
  AllowFrom : List String
  Enabled : Option Bool
deriving DecidableEq, Repr

/-- The struct `OpenClawChannels`: the blocks that `convertChannels` converts, `none` for a
`nil` pointer, and for each channel without an adapter whether its block is present. -/
structure OpenClawChannels where
  Telegram : Option OpenClawTelegramConfig
  Discord : Option OpenClawDiscordConfig
  Slack : Option OpenClawSlackConfig
  WhatsApp : Option OpenClawWhatsAppConfig
  Feishu : Option OpenClawFeishuConfig
  QQ : Option OpenClawQQConfig
  DingTalk : Option OpenClawDingTalkConfig
  MaixCam : Option OpenClawMaixCamConfig
  Signal : Bool
  Matrix : Bool
  IRC : Bool
  Mattermost : Bool
  IMessage : Bool
  BlueBubbles : Bool
deriving DecidableEq, Repr

/-- The struct `OpenClawConfig`, as far as the functions below read it. -/
structure OpenClawConfig where
  Agents : Option OpenClawAgents
  Channels : Option OpenClawChannels
deriving DecidableEq, Repr

/-- The expression `block == nil || block.Enabled == nil || *block.Enabled` of
`IsChannelEnabled`, on the `Enabled` field of a block that may be absent. -/
def enabledOrAbsent (enabled : Option (Option Bool)) : Bool :=
  match enabled with
  | none => true
  | some none => true
  | some (some b) => b

/-- The method `(*OpenClawConfig).IsChannelEnabled`; `none` is the panic of dereferencing the
`nil` pointer `c.Channels`. -/
def OpenClawConfig.IsChannelEnabled (c : OpenClawConfig) (name : String) : Option Bool :=
  if name = "telegram" then
    c.Channels.map (fun ch => enabledOrAbsent (ch.Telegram.map (·.Enabled)))
  else if name = "discord" then
    c.Channels.map (fun ch => enabledOrAbsent (ch.Discord.map (·.Enabled)))
  else if name = "slack" then
    c.Channels.map (fun ch => enabledOrAbsent (ch.Slack.map (·.Enabled)))
  else if name = "whatsapp" then
    c.Channels.map (fun ch => enabledOrAbsent (ch.WhatsApp.map (·.Enabled)))
  else if name = "feishu" then
    c.Channels.map (fun ch => enabledOrAbsent (ch.Feishu.map (·.Enabled)))
  else some false

/-- The method `(*OpenClawConfig).GetDefaultModel`. -/
def OpenClawConfig.GetDefaultModel (c : OpenClawConfig) (ToLower : String → String) :
    String × String :=
  match c.Agents with
  | none => ("anthropic", "claude-sonnet-4-20250514")
  | some agents =>
    match agents.Defaults with
    | none => ("anthropic", "claude-sonnet-4-20250514")
    | some defaults =>
      match defaults.Model with
      | none => ("anthropic", "claude-sonnet-4-20250514")
      | some model =>
        let primary := model.GetPrimary
        if primary = "" then ("anthropic", "claude-sonnet-4-20250514")
        else
          match Split '/' primary.toList with
          | p0 :: p1 :: _ => (mapProvider ToLower (String.mk p0), String.mk p1)
          | _ => ("anthropic", primary)

/-- The struct `WhatsAppConfig` of `PicoClawConfig`. -/
structure PWhatsAppConfig where
  Enabled : Bool
  BridgeURL : String
  AllowFrom : List String
deriving DecidableEq, Repr

/-- The struct `TelegramConfig` of `PicoClawConfig`. -/
structure PTelegramConfig where
  Enabled : Bool
  Token : String
  Proxy : String
  AllowFrom : List String
deriving DecidableEq, Repr

/-- The struct `FeishuConfig` of `PicoClawConfig`. -/
structure PFeishuConfig where
  Enabled : Bool
  AppID : String
  AppSecret : String
  EncryptKey : String
  VerificationToken : String
  AllowFrom : List String
deriving DecidableEq, Repr

/-- The struct `DiscordConfig` of `PicoClawConfig`. -/
structure PDiscordConfig where
  Enabled : Bool
  Token : String
  MentionOnly : Bool
  AllowFrom : List String
deriving DecidableEq, Repr

/-- The struct `MaixCamConfig` of `PicoClawConfig`. -/
structure PMaixCamConfig where
  Enabled : Bool
  Host : String
  Port : Int
  AllowFrom : List String
deriving DecidableEq, Repr

/-- The struct `QQConfig` of `PicoClawConfig`. -/
structure PQQConfig where
  Enabled : Bool
  AppID : String
  AppSecret : String
  AllowFrom : List String
deriving DecidableEq, Repr

/-- The struct `DingTalkConfig` of `PicoClawConfig`. -/
structure PDingTalkConfig where
  Enabled : Bool
  ClientID : String
  ClientSecret : String
  AllowFrom : List String
deriving DecidableEq, Repr

/-- The struct `SlackConfig` of `PicoClawConfig`. -/
structure PSlackConfig where
  Enabled : Bool
  BotToken : String
  AppToken : String
  AllowFrom : List String
deriving DecidableEq, Repr

/-- The struct `LINEConfig` of `PicoClawConfig`. -/
structure PLINEConfig where
  Enabled : Bool
  ChannelSecret : String
  ChannelAccessToken : String
  WebhookHost : String
  WebhookPort : Int
  WebhookPath : String
  AllowFrom : List String
deriving DecidableEq, Repr

/-- The struct `ChannelsConfig` of `PicoClawConfig`. -/
structure ChannelsConfig where
  WhatsApp : PWhatsAppConfig
  Telegram : PTelegramConfig
  Feishu : PFeishuConfig
  Discord : PDiscordConfig
  MaixCam : PMaixCamConfig
  QQ : PQQConfig
  DingTalk : PDingTalkConfig
  Slack : PSlackConfig
  LINE : PLINEConfig
deriving DecidableEq, Repr

/-- The value `ChannelsConfig{}`: every field has its zero value. -/
def ChannelsConfig.zero : ChannelsConfig :=
  ⟨⟨false, "", []⟩, ⟨false, "", "", []⟩, ⟨false, "", "", "", "", []⟩, ⟨false, "", false, []⟩,
    ⟨false, "", 0, []⟩, ⟨false, "", "", []⟩, ⟨false, "", "", []⟩, ⟨false, "", "", []⟩,
    ⟨false, "", "", "", 0, "", []⟩⟩

/-- The table `supportedChannels`. -/
def supportedChannels (name : String) : Bool :=
  ["whatsapp", "telegram", "feishu", "discord", "maixcam", "qq", "dingtalk", "slack", "line",
    "onebot", "wecom", "wecom_app"].contains name

/-- The expression `block.Enabled == nil || *block.Enabled` of `convertChannels`. -/
def enabledOrUnset (enabled : Option Bool) : Bool :=
  match enabled with
  | none => true
  | some b => b

/-- The method `(*OpenClawConfig).convertChannels`: the converted channels and the warnings
that it appends. -/
def OpenClawConfig.convertChannels (c : OpenClawConfig) : ChannelsConfig × List String :=
  match c.Channels with
  | none => (ChannelsConfig.zero, [])
  | some ch =>
    let channels := ChannelsConfig.zero
    let channels :=
      match ch.Telegram with
      | some t =>
        { channels with Telegram :=
            ⟨enabledOrUnset t.Enabled, t.BotToken.getD "", "", t.AllowFrom⟩ }
      | none => channels
    let channels :=
      match ch.Discord with
      | some d =>
        { channels with Discord :=
            ⟨enabledOrUnset d.Enabled, d.Token.getD "", false, d.AllowFrom⟩ }
      | none => channels
    let channels :=
      match ch.Slack with
      | some s =>
        { channels with Slack :=
            ⟨enabledOrUnset s.Enabled, s.BotToken.getD "", s.AppToken.getD "", s.AllowFrom⟩ }
      | none => channels
    let channels :=
      match ch.WhatsApp with
      | some w =>
        { channels with WhatsApp :=
            ⟨enabledOrUnset w.Enabled, w.BridgeURL.getD "", w.AllowFrom⟩ }
      | none => channels
    let channels :=
      match ch.Feishu with
      | some f =>
        { channels with Feishu :=
            ⟨enabledOrUnset f.Enabled, f.AppID.getD "", f.AppSecret.getD "",
              f.EncryptKey.getD "", f.VerificationToken.getD "", f.AllowFrom⟩ }
      | none => channels
    let channels :=
      match ch.QQ with
      | some q =>
        if supportedChannels "qq" then
          { channels with QQ := ⟨true, q.AppID.getD "", q.AppSecret.getD "", q.AllowFrom⟩ }
        else channels
      | none => channels
    let channels :=
      match ch.DingTalk with
      | some d =>
        if supportedChannels "dingtalk" then
          { channels with DingTalk :=
              ⟨true, d.AppID.getD "", d.AppSecret.getD "", d.AllowFrom⟩ }
        else channels
      | none => channels
    let channels :=
      match ch.MaixCam with
      | some m =>
        if supportedChannels "maixcam" then
          { channels with MaixCam := ⟨true, m.Host.getD "", m.Port.getD 0, m.AllowFrom⟩ }
        else channels
      | none => channels
    let warnings :=
      (if ch.Signal then ["Channel 'signal': No PicoClaw adapter available"] else []) ++
      (if ch.Matrix then ["Channel 'matrix': No PicoClaw adapter available"] else []) ++
      (if ch.IRC then ["Channel 'irc': No PicoClaw adapter available"] else []) ++
      (if ch.Mattermost then ["Channel 'mattermost': No PicoClaw adapter available"]
        else []) ++
      (if ch.IMessage then
          ["Channel 'imessage': macOS-only channel - requires manual setup"] else []) ++
      (if ch.BlueBubbles then
          ["Channel 'bluebubbles': No PicoClaw adapter available - consider iMessage instead"]
        else [])
    (channels, warnings)

/-- The struct `config.ChannelsConfig` of the standard configuration, as far as
`ToStandardChannels` builds it: for each channel the fields that the composite literal names,
and `AllowFrom`, which a composite literal that does not name it leaves at its zero value. -/
structure StdChannelsConfig where
  WhatsApp : PWhatsAppConfig
  Telegram : PTelegramConfig
  Feishu : PFeishuConfig
  Discord : PDiscordConfig
  MaixCam : PMaixCamConfig
  QQ : PQQConfig
  DingTalk : PDingTalkConfig
  Slack : PSlackConfig
  LINE : PLINEConfig
deriving DecidableEq, Repr

/-- The method `ChannelsConfig.ToStandardChannels`. -/
def ChannelsConfig.ToStandardChannels (c : ChannelsConfig) : StdChannelsConfig :=
  { WhatsApp :=
      { Enabled := c.WhatsApp.Enabled
        BridgeURL := c.WhatsApp.BridgeURL
        AllowFrom := [] }
    Telegram :=
      { Enabled := c.Telegram.Enabled
        Token := c.Telegram.Token
        Proxy := c.Telegram.Proxy
        AllowFrom := [] }
    Feishu :=
      { Enabled := c.Feishu.Enabled
        AppID := c.Feishu.AppID
        AppSecret := c.Feishu.AppSecret
        EncryptKey := c.Feishu.EncryptKey
        VerificationToken := c.Feishu.VerificationToken
        AllowFrom := [] }
    Discord :=
      { Enabled := c.Discord.Enabled
        Token := c.Discord.Token
        MentionOnly := c.Discord.MentionOnly
        AllowFrom := [] }
    MaixCam :=
      { Enabled := c.MaixCam.Enabled
        Host := c.MaixCam.Host
        Port := c.MaixCam.Port
        AllowFrom := [] }
    QQ :=
      { Enabled := c.QQ.Enabled
        AppID := c.QQ.AppID
        AppSecret := c.QQ.AppSecret
        AllowFrom := [] }
    DingTalk :=
      { Enabled := c.DingTalk.Enabled
        ClientID := c.DingTalk.ClientID
        ClientSecret := c.DingTalk.ClientSecret
        AllowFrom := [] }
    Slack :=
      { Enabled := c.Slack.Enabled
        BotToken := c.Slack.BotToken
        AppToken := c.Slack.AppToken
        AllowFrom := [] }
    LINE :=
      { Enabled := c.LINE.Enabled
        ChannelSecret := c.LINE.ChannelSecret
        ChannelAccessToken := c.LINE.ChannelAccessToken
        WebhookHost := c.LINE.WebhookHost
        WebhookPort := c.LINE.WebhookPort
        WebhookPath := c.LINE.WebhookPath
        AllowFrom := [] } }

/-- The struct `ProviderConfig` of `models.json`, without its list of models. -/
structure OCProviderConfig where
  BaseUrl : String
  Api : String
  ApiKey : String
deriving DecidableEq, Repr

/-- Go's `m[key] = value` on a map kept as a list of pairs with different keys. -/
def mapSet (m : List (String × OCProviderConfig)) (key : String) (value : OCProviderConfig) :
    List (String × OCProviderConfig) :=
  if m.lookup key = none then m ++ [(key, value)]
  else m.map (fun kv => if kv.1 = key then (key, value) else kv)

/-- The function `GetProviderConfigFromDir`, on what it reads: `none` when `models.json` is
missing, unreadable or not JSON, else the entries of its `providers` object in the order of
the iteration, each with the provider it decodes to (`none` when it does not decode). -/
def GetProviderConfigFromDir (ToLower : String → String)
    (file : Option (List (String × Option OCProviderConfig))) :
    List (String × OCProviderConfig) :=
  match file with
  | none => []
  | some providers =>
    providers.foldl (fun result entry =>
      match entry.2 with
      | none => result
      | some prov => mapSet result (mapProvider ToLower entry.1) prov) []

/-- The struct `ModelConfig` of `PicoClawConfig`. -/
structure PModelConfig where
  ModelName : String
  Model : String
  APIBase : String
  APIKey : String
  Proxy : String
deriving DecidableEq, Repr

/-- The struct `PicoClawConfig`, as far as `ConvertToPicoClaw` fills the default agent, the
models and the channels; `Workspace` and `ModelName` are those of `Agents.Defaults`. -/
structure PicoClawConfig where
  Workspace : String
  ModelName : String
  ModelList : List PModelConfig
  Channels : ChannelsConfig
deriving DecidableEq, Repr

/-- The function `rewriteWorkspacePath`. -/
def rewriteWorkspacePath (path : String) : String :=
  String.mk (Replace path.toList ".openclaw".toList ".picoclaw".toList 1)

/-- The method `(*OpenClawConfig).GetDefaultWorkspace`. -/
def OpenClawConfig.GetDefaultWorkspace (c : OpenClawConfig) : String :=
  match c.Agents with
  | none => ""
  | some agents =>
    match agents.Defaults with
    | none => ""
    | some defaults =>
      match defaults.Workspace with
      | none => ""
      | some w => rewriteWorkspacePath w

/-- The loop of `ConvertToPicoClaw` over `providerConfigs`, in the order of the
iteration. -/
def otherProviders (provider : String) :
    List (String × OCProviderConfig) → List PModelConfig
  | [] => []
  | (provName, provCfg) :: rest =>
    if provName = provider then otherProviders provider rest
    else if provCfg.ApiKey ≠ "" then otherProviders provider rest
    else
      ⟨provName, provName ++ "/" ++ provName, provCfg.BaseUrl, provCfg.ApiKey, ""⟩ ::
        otherProviders provider rest

/-- The method `(*OpenClawConfig).ConvertToPicoClaw`, as far as it fills the default agent,
the models and the channels; `file` is what `GetProviderConfigFromDir` reads under
`sourceHome`. -/
def OpenClawConfig.ConvertToPicoClaw (c : OpenClawConfig) (ToLower : String → String)
    (file : Option (List (String × Option OCProviderConfig))) : PicoClawConfig :=
  let (provider, modelName) := c.GetDefaultModel ToLower
  let providerConfigs := GetProviderConfigFromDir ToLower file
  let (defaultAPIKey, defaultBaseURL) :=
    match providerConfigs.lookup provider with
    | some provCfg => (provCfg.ApiKey, provCfg.BaseUrl)
    | none => ("", "")
  { Workspace := c.GetDefaultWorkspace
    ModelName := modelName
    ModelList :=
      ⟨modelName, provider ++ "/" ++ modelName, defaultBaseURL, defaultAPIKey, ""⟩ ::
        otherProviders provider providerConfigs
    Channels := c.convertChannels.1 }

/-- Go's `strings.ToLower` on ASCII text: the letters `A` to `Z` become `a` to `z`, every
other character is kept. -/
def ToLowerASCII (s : String) : String :=
  String.mk (s.toList.map (fun c =>
    if 65 ≤ c.toNat ∧ c.toNat ≤ 90 then Char.ofNat (c.toNat + 32) else c))

/-! ## `migrate`: `Run`, `Plan`, `Execute` -/

/-- The struct `Options`. -/
structure Options where
  DryRun : Bool
  ConfigOnly : Bool
  WorkspaceOnly : Bool
  Force : Bool
  Refresh : Bool
  Source : String
  SourceHome : String
  TargetHome : String
deriving DecidableEq, Repr

/-- The files of the file system: the content of every path that is a file. -/
abbrev Files := String → Option String

/-- The file system after the file `path` has got the content `content`. -/
def Files.write (fs : Files) (path content : String) : Files :=
  fun p => if p = path then some content else fs p

/-- What goes wrong in one call of `CopyFile`, apart from a missing source: nothing, the
opening of the source (or its `Stat`), the opening of the destination, or `io.Copy` after
`written` characters. -/
inductive CopyFault where
  | none
  | openSrc
  | openDst
  | copy (written : Nat)
deriving DecidableEq, Repr

/-- The function `CopyFile`: the message of the error it returns, if any, and the files
after the call.  Opening the destination with `O_TRUNC` empties it before `io.Copy` reads the
source. -/
def CopyFile (fs : Files) (fault : CopyFault) (src dst : String) : Option String × Files :=
  match fs src with
  | Option.none => (some ("open " ++ src ++ ": no such file or directory"), fs)
  | some _ =>
    match fault with
    | .openSrc => (some ("open " ++ src), fs)
    | .openDst => (some ("open " ++ dst), fs)
    | .copy written =>
      let fs1 := fs.write dst ""
      (some ("copy " ++ dst),
        fs1.write dst (String.mk (((fs1 src).getD "").toList.take written)))
    | .none =>
      let fs1 := fs.write dst ""
      (Option.none, fs1.write dst ((fs1 src).getD ""))

/-- The struct `Result`; an error is kept as its message. -/
structure Result where
  FilesCopied : Nat
  FilesSkipped : Nat
  BackupsCreated : Nat
  ConfigMigrated : Bool
  DirsCreated : Nat
  Warnings : List String
  Errors : List String
deriving DecidableEq, Repr

/-- The value `Result{}`. -/
def Result.zero : Result := ⟨0, 0, 0, false, 0, [], []⟩

/-- What the execution of one action meets: the result of `ExecuteConfigMigration` (the
message of its error, if any, and the files after it), whether `os.MkdirAll` fails, and what
goes wrong in the `CopyFile` that writes the backup and in the one that writes the target. -/
structure StepEnv where
  ExecuteConfigMigration : Files → Option String × Files
  mkdirFails : Bool
  backupFault : CopyFault
  copyFault : CopyFault

/-- The part of `Execute` that `ActionCopy` and `ActionBackup` share: `os.MkdirAll` on the
directory of the target, then `CopyFile(action.Source, action.Target)`. -/
def copyStep (result : Result) (fs : Files) (action : Action) (env : StepEnv) :
    Result × Files :=
  if env.mkdirFails then
    ({ result with Errors := result.Errors ++ ["mkdir " ++ action.Target] }, fs)
  else
    match CopyFile fs env.copyFault action.Source action.Target with
    | (some e, fs1) =>
      ({ result with Errors := result.Errors ++ ["copy " ++ action.Source ++ ": " ++ e] }, fs1)
    | (Option.none, fs1) => ({ result with FilesCopied := result.FilesCopied + 1 }, fs1)

/-- The body of the loop of `Execute` for one action. -/
def executeAction (result : Result) (fs : Files) (action : Action) (env : StepEnv) :
    Result × Files :=
  match action.Typ with
  | .ActionConvertConfig =>
    match env.ExecuteConfigMigration fs with
    | (some e, fs1) =>
      ({ result with Errors := result.Errors ++ ["config migration: " ++ e] }, fs1)
    | (Option.none, fs1) => ({ result with ConfigMigrated := true }, fs1)
  | .ActionCreateDir =>
    if env.mkdirFails then
      ({ result with Errors := result.Errors ++ ["mkdir " ++ action.Target] }, fs)
    else ({ result with DirsCreated := result.DirsCreated + 1 }, fs)
  | .ActionBackup =>
    let bakPath := action.Target ++ ".bak"
    match CopyFile fs env.backupFault action.Target bakPath with
    | (some e, fs1) =>
      ({ result with Errors := result.Errors ++ ["backup " ++ action.Target ++ ": " ++ e] },
        fs1)
    | (Option.none, fs1) =>
      copyStep { result with BackupsCreated := result.BackupsCreated + 1 } fs1 action env
  | .ActionCopy => copyStep result fs action env
  | .ActionSkip => ({ result with FilesSkipped := result.FilesSkipped + 1 }, fs)
  | .ActionMergeConfig => (result, fs)

/-- The loop of `Execute` over the actions, each with what its execution meets. -/
def executeLoop (result : Result) (fs : Files) : List (Action × StepEnv) → Result × Files
  | [] => (result, fs)
  | (action, env) :: rest =>
    executeLoop (executeAction result fs action env).1 (executeAction result fs action env).2
      rest

/-- The method `(*MigrateInstance).Execute`; `handlerFound` tells whether
`getCurrentHandler` finds the handler of the source. -/
def Execute (handlerFound : Bool) (fs : Files) (steps : List (Action × StepEnv)) :
    Result × Files :=
  if !handlerFound then (Result.zero, fs) else executeLoop Result.zero fs steps

/-- What `Run` and `Plan` meet outside the migration instance. -/
structure RunEnv where
  /-- Whether `getCurrentHandler` finds the handler of the source. -/
  handlerFound : Bool
  /-- The result of `handler.GetSourceHome()`. -/
  GetSourceHome : Except String String
  /-- The result of `internal.ResolveTargetHome(opts.TargetHome)`. -/
  ResolveTargetHome : Except String String
  /-- The result of `os.Stat(sourceHome)`. -/
  statSourceHome : StatResult
  /-- The result of `handler.GetSourceConfigFile()`. -/
  GetSourceConfigFile : Except String String
  /-- The result of `handler.GetSourceWorkspace()`. -/
  GetSourceWorkspace : Except String String
  /-- The result of `os.Stat(srcWorkspace)`. -/
  statSourceWorkspace : StatResult
  /-- The result of `internal.PlanWorkspaceMigration` for a value of `force`. -/
  PlanWorkspaceMigration : Bool → Except String (List Action)
  /-- The answer of `Confirm()`. -/
  Confirm : Bool
  /-- Go's `filepath.Join` of two elements. -/
  Join : String → String → String

/-- The method `(*MigrateInstance).Plan`: the actions and the warnings, or the message of the
error. -/
def Plan (env : RunEnv) (opts : Options) (targetHome : String) :
    Except String (List Action × List String) :=
  if !env.handlerFound then .error ("Source '" ++ opts.Source ++ "' not found")
  else
    let force := opts.Force || opts.Refresh
    let config : Except String (List Action × List String) :=
      if !opts.WorkspaceOnly then
        match env.GetSourceConfigFile with
        | .error e =>
          if opts.ConfigOnly then .error e
          else .ok ([], ["Config migration skipped: " ++ e])
        | .ok configPath =>
          .ok ([⟨.ActionConvertConfig, configPath, env.Join targetHome "config.json",
            "convert Source config to PicoClaw format"⟩], [])
      else .ok ([], [])
    match config with
    | .error e => .error e
    | .ok (actions, warnings) =>
      if !opts.ConfigOnly then
        match env.GetSourceWorkspace with
        | .error e => .error ("getting source workspace: " ++ e)
        | .ok _ =>
          if env.statSourceWorkspace = .ok then
            match env.PlanWorkspaceMigration force with
            | .error e => .error ("planning workspace migration: " ++ e)
            | .ok wsActions => .ok (actions ++ wsActions, warnings)
          else
            .ok (actions, warnings ++
              ["Source workspace directory not found, skipping workspace migration"])
      else .ok (actions, warnings)

/-- What a call of `Run` does: the message of the error it returns (`none` for `nil`), the
plan that `Plan` has returned to it, and the actions that it has passed to `Execute`. -/
structure RunOutcome where
  err : Option String
  planned : Option (List Action × List String)
  executed : Option (List Action)
deriving DecidableEq, Repr

/-- The method `(*MigrateInstance).Run`. -/
def Run (env : RunEnv) (opts : Options) : RunOutcome :=
  if !env.handlerFound then ⟨some ("Source '" ++ opts.Source ++ "' not found"), none, none⟩
  else if opts.ConfigOnly && opts.WorkspaceOnly then
    ⟨some "--config-only and --workspace-only are mutually exclusive", none, none⟩
  else
    let opts := if opts.Refresh then { opts with WorkspaceOnly := true } else opts
    match env.GetSourceHome with
    | .error e => ⟨some e, none, none⟩
    | .ok sourceHome =>
      match env.ResolveTargetHome with
      | .error e => ⟨some e, none, none⟩
      | .ok targetHome =>
        if env.statSourceHome = .notExist then
          ⟨some ("Source installation not found at " ++ sourceHome), none, none⟩
        else
          match Plan env opts targetHome with
          | .error e => ⟨some e, none, none⟩
          | .ok (actions, warnings) =>
            if opts.DryRun then ⟨none, some (actions, warnings), none⟩
            else if !opts.Force && !env.Confirm then ⟨none, some (actions, warnings), none⟩
            else ⟨none, some (actions, warnings), some actions⟩

/-! # Properties -/

/-! ## Arithmetic of the embedding -/

theorem goMod_natCast (a c : Nat) (hc : 1 ≤ c) :
    goMod (a : Int) (c : Int) = some (((a % c : Nat)) : Int) := by
  have h : (c : Int) ≠ 0 := by omega
  rw [goMod, if_neg h, Int.ofNat_tmod]

theorem mod_ne_of_lt_of_lt {i n c : Nat} (h1 : i < n) (h2 : n < i + c) : n % c ≠ i % c := by
  intro h
  have h3 := Nat.sub_mod_eq_zero_of_mod_eq h
  have h4 : c ∣ n - i := Nat.dvd_of_mod_eq_zero h3
  have h5 := Nat.le_of_dvd (by omega) h4
  omega

theorem wrap64_of_mem {x : Int} (h0 : -2 ^ 63 ≤ x) (h1 : x < 2 ^ 63) : wrap64 x = x := by
  unfold wrap64
  norm_num at h0 h1 ⊢
  omega

theorem index_natCast (s : List String) (i : Nat) : index s (i : Int) = s[i]? := by
  unfold index
  by_cases h : i < s.length
  · have : (0 : Int) ≤ (i : Int) ∧ (i : Int) < (s.length : Int) := ⟨by omega, by exact_mod_cast h⟩
    simp [this]
  · have : ¬ ((0 : Int) ≤ (i : Int) ∧ (i : Int) < (s.length : Int)) := by
      intro hh; exact h (by exact_mod_cast hh.2)
    rw [if_neg this, List.getElem?_eq_none (by omega)]

/-! ## The ring invariant of `LogBuffer` -/

theorem RingInv.append {c : Nat} {b : LogBuffer} {as : List String} (h : RingInv c b as)
    (line : String) :
    ∃ b1, b.Append line = some b1 ∧ RingInv c b1 (as ++ [line]) ∧ b1.runID = b.runID := by
  obtain ⟨hcap, hc, htot, hlen, hget⟩ := h
  by_cases hlt : as.length < c
  · have hl : b.lines.length = as.length := by omega
    refine ⟨{ b with lines := b.lines ++ [line], total := b.total + 1 }, ?_, ?_, rfl⟩
    · have : (b.lines.length : Int) < b.cap := by rw [hcap, hl]; exact_mod_cast hlt
      simp [LogBuffer.Append, this]
    · refine ⟨hcap, hc, ?_, ?_, ?_⟩
      · simp [htot]
      · simp [hl]; omega
      · intro i hi _
        simp only [List.length_append, List.length_singleton] at hi
        have him : i % c = i := Nat.mod_eq_of_lt (by omega)
        rw [him]
        by_cases hia : i < as.length
        · rw [List.getElem?_append_left (by omega), List.getElem?_append_left hia]
          have := hget i hia (by omega)
          rwa [him] at this
        · have : i = as.length := by omega
          subst this
          rw [List.getElem?_append_right (by omega), List.getElem?_append_right (le_refl _)]
          simp [hl]
  · have hl : b.lines.length = c := by omega
    have hidx : as.length % c < c := Nat.mod_lt _ (by omega)
    refine ⟨{ b with lines := b.lines.set (as.length % c) line, total := b.total + 1 }, ?_, ?_, rfl⟩
    · have h1 : ¬ ((b.lines.length : Int) < b.cap) := by rw [hcap, hl]; omega
      have h2 : goMod b.total b.cap = some (((as.length % c : Nat)) : Int) := by
        rw [hcap, htot]; exact goMod_natCast _ _ hc
      have h3 : (0 : Int) ≤ ((as.length % c : Nat) : Int) ∧
          (((as.length % c : Nat)) : Int) < (b.lines.length : Int) := by
        rw [hl]; constructor
        · omega
        · exact_mod_cast hidx
      simp only [LogBuffer.Append, h1, if_false, h2, h3, and_self, if_true, Int.toNat_natCast]
    · refine ⟨hcap, hc, ?_, ?_, ?_⟩
      · simp [htot]
      · simp [hl]; omega
      · intro i hi hic
        simp only [List.length_append, List.length_singleton] at hi hic
        simp only [List.getElem?_set]
        by_cases hia : i < as.length
        · have hne : as.length % c ≠ i % c := mod_ne_of_lt_of_lt hia (by omega)
          rw [if_neg hne, List.getElem?_append_left hia]
          exact hget i hia (by omega)
        · have : i = as.length := by omega
          subst this
          rw [List.getElem?_append_right (le_refl _)]
          simp [hl, hidx]

theorem RingInv.reset {c : Nat} {b : LogBuffer} {as : List String} (h : RingInv c b as) :
    RingInv c b.Reset [] := by
  obtain ⟨hcap, hc, -, -, -⟩ := h
  refine ⟨hcap, hc, rfl, by simp [LogBuffer.Reset], ?_⟩
  intro i hi
  simp at hi

theorem RingInv.new {c : Nat} {b0 : LogBuffer} (hc : 1 ≤ c)
    (h0 : NewLogBuffer (c : Int) = some b0) : RingInv c b0 [] ∧ b0.runID = 0 := by
  have hn : ¬ ((c : Int) < 0) := by omega
  rw [NewLogBuffer, if_neg hn] at h0
  cases h0
  refine ⟨⟨rfl, hc, rfl, by simp, ?_⟩, rfl⟩
  intro i hi
  simp at hi

theorem RingInv.run {c : Nat} : ∀ (ops : List Op) (b : LogBuffer) (as : List String),
    RingInv c b as →
    ∃ b1, b.run ops = some b1 ∧
      RingInv c b1 (ops.foldl (fun acc op =>
        match op with
        | .append line => acc ++ [line]
        | .reset => []
        | .linesSince _ => acc) as) ∧
      b1.runID = b.runID + countResets ops := by
  intro ops
  induction ops with
  | nil => intro b as h; exact ⟨b, rfl, h, by simp [countResets]⟩
  | cons op ops ih =>
    intro b as h
    cases op with
    | append line =>
      obtain ⟨b1, e1, h1, r1⟩ := h.append line
      obtain ⟨b2, e2, h2, r2⟩ := ih b1 _ h1
      refine ⟨b2, ?_, h2, ?_⟩
      · simp only [LogBuffer.run, LogBuffer.step, e1, e2]
      · rw [r2, r1]; simp [countResets]
    | reset =>
      obtain ⟨b2, e2, h2, r2⟩ := ih b.Reset _ h.reset
      refine ⟨b2, ?_, h2, ?_⟩
      · simp only [LogBuffer.run, LogBuffer.step, e2]
      · rw [r2]; simp [countResets, LogBuffer.Reset]; ring
    | linesSince k =>
      obtain ⟨b2, e2, h2, r2⟩ := ih b _ h
      refine ⟨b2, ?_, h2, ?_⟩
      · simp only [LogBuffer.run, LogBuffer.step, e2]
      · rw [r2]; simp [countResets]

theorem reachable_inv {c : Nat} {b0 : LogBuffer} (hc : 1 ≤ c)
    (h0 : NewLogBuffer (c : Int) = some b0) (ops : List Op) :
    ∃ b, b0.run ops = some b ∧ RingInv c b (currentRun ops) ∧
      b.runID = (countResets ops : Int) := by
  obtain ⟨hinv, hr⟩ := RingInv.new hc h0
  obtain ⟨b, e, h, r⟩ := RingInv.run ops b0 [] hinv
  exact ⟨b, e, h, by rw [r, hr]; simp⟩

theorem RingInv.ringCopy_eq {c : Nat} {b : LogBuffer} {as : List String} (h : RingInv c b as)
    (base : Nat) (hbase : as.length ≤ base + c) :
    ∀ cnt i, base + i + cnt ≤ as.length →
      ringCopy b (((base % c : Nat)) : Int) i cnt = some ((as.drop (base + i)).take cnt) := by
  obtain ⟨hcap, hc, htot, hlen, hget⟩ := h
  intro cnt
  induction cnt with
  | zero => intro i _; simp [ringCopy]
  | succ cnt ih =>
    intro i hi
    have hlt : base + i < as.length := by omega
    have h1 : goMod ((((base % c : Nat)) : Int) + (i : Int)) b.cap
        = some ((((base + i) % c : Nat)) : Int) := by
      rw [hcap, ← Nat.mod_add_mod]
      have := goMod_natCast (base % c + i) c hc
      rw [← this]; push_cast; rfl
    have h2 : index b.lines ((((base + i) % c : Nat)) : Int) = some (as[base + i]) := by
      rw [index_natCast, hget (base + i) hlt (by omega), List.getElem?_eq_getElem hlt]
    have h3 := ih (i + 1) (by omega)
    rw [ringCopy, h1]
    simp only [h2, h3]
    rw [List.drop_eq_getElem_cons hlt, List.take_succ_cons]
    rfl

theorem RingInv.lines_eq {c : Nat} {b : LogBuffer} {as : List String} (h : RingInv c b as)
    (hn : as.length ≤ c) : b.lines = as := by
  obtain ⟨hcap, hc, htot, hlen, hget⟩ := h
  apply List.ext_getElem?
  intro i
  by_cases hi : i < as.length
  · have := hget i hi (by omega)
    rwa [Nat.mod_eq_of_lt (by omega)] at this
  · rw [List.getElem?_eq_none (by omega), List.getElem?_eq_none (by omega)]

theorem RingInv.linesSince {c : Nat} {b : LogBuffer} {as : List String} (h : RingInv c b as)
    (hn : (as.length : Int) < 2 ^ 63) (k : Int) (hk : 0 ≤ k) :
    b.LinesSince k = some
      ⟨if k ≥ as.length then none else some (as.drop (max k.toNat (as.length - c))),
        as.length, b.runID⟩ := by
  have hinv := h
  obtain ⟨hcap, hc, htot, hlen, hget⟩ := h
  lift k to ℕ using hk
  simp only [Int.toNat_natCast]
  by_cases hkn : (k : Int) ≥ as.length
  · simp [LogBuffer.LinesSince, htot, hkn]
  · have hkn1 : k < as.length := by omega
    set m := max k (as.length - c) with hm
    have hw : wrap64 (b.total - (k : Int)) = ((as.length - k : Nat) : Int) := by
      rw [htot, wrap64_of_mem (by omega) (by omega)]; omega
    have hnc : (if wrap64 (b.total - (k : Int)) > (b.lines.length : Int) then (b.lines.length : Int)
        else wrap64 (b.total - (k : Int))) = ((as.length - m : Nat) : Int) := by
      rw [hw, hlen]
      split_ifs with hgt <;> omega
    have hge : ¬ (k : Int) ≥ b.total := by rw [htot]; exact hkn
    simp only [LogBuffer.LinesSince, hge, if_false, hnc, hkn]
    have hnn : ¬ (((as.length - m : Nat)) : Int) < 0 := by omega
    rw [if_neg hnn]
    by_cases hwrap : as.length ≤ c
    · have hle : b.total ≤ b.cap := by rw [htot, hcap]; exact_mod_cast hwrap
      rw [if_pos hle, hinv.lines_eq hwrap]
      have hmk : m = k := by omega
      have e1 : ((as.length : Int) - ((as.length - m : Nat) : Int)).toNat = m := by omega
      rw [Int.toNat_natCast, e1, List.take_of_length_le (by simp), htot]
    · have hle : ¬ b.total ≤ b.cap := by rw [htot, hcap]; omega
      rw [if_neg hle]
      have e1 : wrap64 (b.total - ((as.length - m : Nat) : Int)) = (m : Int) := by
        rw [htot, wrap64_of_mem (by omega) (by omega)]; omega
      rw [e1, hcap, goMod_natCast _ _ hc]
      simp only [Int.toNat_natCast]
      have := hinv.ringCopy_eq m (by omega) (as.length - m) 0 (by omega)
      rw [this]
      simp only [Nat.add_zero]
      rw [List.take_of_length_le (by simp), htot]

theorem LogBuffer.append_fields {b b1 : LogBuffer} {line : String}
    (h : b.Append line = some b1) :
    b1.total = b.total + 1 ∧ b1.runID = b.runID ∧ b1.cap = b.cap := by
  unfold LogBuffer.Append at h
  split_ifs at h with h1
  · cases h; exact ⟨rfl, rfl, rfl⟩
  · split at h
    · cases h
    · split_ifs at h with h2
      cases h; exact ⟨rfl, rfl, rfl⟩

theorem currentRun_append_op (ops : List Op) (op : Op) :
    currentRun (ops ++ [op]) =
      match op with
      | .append line => currentRun ops ++ [line]
      | .reset => []
      | .linesSince _ => currentRun ops := by
  simp only [currentRun, List.foldl_append, List.foldl_cons, List.foldl_nil]

theorem appendsSinceReset_eq (ops : List Op) :
    appendsSinceReset ops = (currentRun ops).length := by
  induction ops using List.reverseRecOn with
  | nil => rfl
  | append_singleton ops op ih =>
    rw [currentRun_append_op]
    unfold appendsSinceReset at ih ⊢
    rw [List.reverse_append, List.reverse_singleton, List.singleton_append]
    cases op with
    | append line =>
      rw [List.takeWhile_cons_of_pos (by simp), List.filter_cons_of_pos (by simp)]
      simp only [List.length_cons, List.length_append, List.length_nil, ih]
    | reset => simp
    | linesSince k =>
      rw [List.takeWhile_cons_of_pos (by simp), List.filter_cons_of_neg (by simp)]
      exact ih

theorem currentRun_length_mono (ops ops1 : List Op) (h : Op.reset ∉ ops1) :
    (currentRun ops).length ≤ (currentRun (ops ++ ops1)).length := by
  induction ops1 using List.reverseRecOn with
  | nil => simp
  | append_singleton ops1 op ih =>
    have h1 : Op.reset ∉ ops1 := fun hh => h (List.mem_append_left _ hh)
    have h2 : op ≠ Op.reset := fun hh => h (by simp [hh])
    rw [← List.append_assoc, currentRun_append_op]
    cases op with
    | append line => simp only [List.length_append, List.length_singleton]; have := ih h1; omega
    | reset => exact absurd rfl h2
    | linesSince k => exact ih h1

/-! ## The claims on `LogBuffer` -/

/-- C1: for a buffer of capacity `cap ≥ 1` and any sequence of calls since construction whose
current run (the appends since construction or the last `Reset`) holds `n ≤ cap` lines
`a_0 .. a_{n-1}`, the calls succeed and `LinesSince(k)`, `k ≥ 0`, returns the lines
`a_k .. a_{n-1}` in append order (`nil` when `k ≥ n`) with `total = n` and the current
`runID`. -/
theorem C1_linesSince_before_wrap (capacity : Nat) (hcap : 1 ≤ capacity)
    (hint : (capacity : Int) < 2 ^ 63) (b0 : LogBuffer)
    (h0 : NewLogBuffer (capacity : Int) = some b0) (ops : List Op)
    (hn : (currentRun ops).length ≤ capacity) (k : Int) (hk : 0 ≤ k) :
    ∃ b, b0.run ops = some b ∧
      b.LinesSince k = some
        ⟨if k ≥ (currentRun ops).length then none
          else some ((currentRun ops).drop k.toNat),
          (currentRun ops).length, b.RunID⟩ := by
  obtain ⟨b, e, h, -⟩ := reachable_inv hcap h0 ops
  refine ⟨b, e, ?_⟩
  have hlt : ((currentRun ops).length : Int) < 2 ^ 63 := by
    have : ((currentRun ops).length : Int) ≤ (capacity : Int) := by exact_mod_cast hn
    omega
  rw [h.linesSince hlt k hk]
  have : (currentRun ops).length - capacity = 0 := by omega
  simp [this, LogBuffer.RunID]

/-- Witness of C1: capacity 5, a first run ended by `Reset`, then three appends, read from
offset 2. -/
theorem C1_linesSince_before_wrap_witness :
    ∃ b, (LogBuffer.mk [] 5 0 0).run
        [.append "old", .reset, .append "line1", .append "line2", .append "line3"] = some b ∧
      b.LinesSince 2 = some ⟨some ["line3"], 3, b.RunID⟩ := by
  have h := C1_linesSince_before_wrap 5 (by decide) (by norm_num) (LogBuffer.mk [] 5 0 0) rfl
    [.append "old", .reset, .append "line1", .append "line2", .append "line3"]
    (by decide) 2 (by decide)
  simpa [currentRun] using h

/-- C2: for a buffer of capacity `cap ≥ 1` whose current run holds `n > cap` lines
`a_0 .. a_{n-1}`, `LinesSince(k)`, `k ≥ 0`, returns `a_m .. a_{n-1}` in append order with
`m = max(k, n - cap)` (`nil` when `k ≥ n`), with `total = n` and the current `runID`; for an
offset of an evicted line (`k < n - cap`) these are the last `cap` appended lines. -/
theorem C2_linesSince_after_wrap (capacity : Nat) (hcap : 1 ≤ capacity) (b0 : LogBuffer)
    (h0 : NewLogBuffer (capacity : Int) = some b0) (ops : List Op)
    (hn : capacity < (currentRun ops).length)
    (hint : ((currentRun ops).length : Int) < 2 ^ 63) (k : Int) (hk : 0 ≤ k) :
    ∃ b, b0.run ops = some b ∧
      b.LinesSince k = some
        ⟨if k ≥ (currentRun ops).length then none
          else some ((currentRun ops).drop (max k.toNat ((currentRun ops).length - capacity))),
          (currentRun ops).length, b.RunID⟩ ∧
      (k < (((currentRun ops).length - capacity : Nat) : Int) →
        b.LinesSince k = some
          ⟨some ((currentRun ops).drop ((currentRun ops).length - capacity)),
            (currentRun ops).length, b.RunID⟩ ∧
        ((currentRun ops).drop ((currentRun ops).length - capacity)).length = capacity) := by
  obtain ⟨b, e, h, -⟩ := reachable_inv hcap h0 ops
  refine ⟨b, e, h.linesSince hint k hk, ?_⟩
  intro hk2
  rw [h.linesSince hint k hk]
  have h1 : ¬ k ≥ ((currentRun ops).length : Int) := by omega
  have h2 : max k.toNat ((currentRun ops).length - capacity)
      = (currentRun ops).length - capacity := by omega
  rw [if_neg h1, h2]
  refine ⟨rfl, ?_⟩
  rw [List.length_drop]; omega

/-- Witness of C2: capacity 3, five appends, read from the evicted offset 1. -/
theorem C2_linesSince_after_wrap_witness :
    ∃ b, (LogBuffer.mk [] 3 0 0).run
        [.append "a", .append "b", .append "c", .append "d", .append "e"] = some b ∧
      b.LinesSince 1 = some ⟨some ["c", "d", "e"], 5, b.RunID⟩ := by
  have h := C2_linesSince_after_wrap 3 (by decide) (LogBuffer.mk [] 3 0 0) rfl
    [.append "a", .append "b", .append "c", .append "d", .append "e"]
    (by decide) (by simp [currentRun]) 1 (by decide)
  obtain ⟨b, e, h1, -⟩ := h
  exact ⟨b, e, by simpa [currentRun] using h1⟩

/-- C3: `Reset` leaves no lines and `Total() = 0`, adds exactly 1 to `RunID()` and keeps the
capacity; `Append` keeps `RunID`; and after any sequence of `Append`, `Reset` and
`LinesSince` calls on a new buffer of capacity at least 1 the calls have succeeded and
`RunID()` is the number of `Reset` calls made. -/
theorem C3_reset_and_runID :
    (∀ b : LogBuffer, b.Reset.lines = [] ∧ b.Reset.Total = 0 ∧
      b.Reset.RunID = b.RunID + 1 ∧ b.Reset.cap = b.cap) ∧
    (∀ (b b1 : LogBuffer) (line : String), b.Append line = some b1 → b1.RunID = b.RunID) ∧
    (∀ (b : LogBuffer) (k : Int), b.step (.linesSince k) = some b) ∧
    (∀ (capacity : Nat) (b0 : LogBuffer) (ops : List Op), 1 ≤ capacity →
      NewLogBuffer (capacity : Int) = some b0 →
      ∃ b, b0.run ops = some b ∧ b.RunID = (countResets ops : Int)) := by
  refine ⟨fun b => ⟨rfl, rfl, rfl, rfl⟩, ?_, fun _ _ => rfl, ?_⟩
  · intro b b1 line h
    exact (LogBuffer.append_fields h).2.1
  · intro capacity b0 ops hcap h0
    obtain ⟨b, e, -, r⟩ := reachable_inv hcap h0 ops
    exact ⟨b, e, r⟩

/-- Witness of C3: one append, a reset, an append and a read on a buffer of capacity 5 leave
`RunID() = 1`. -/
theorem C3_reset_and_runID_witness :
    ∃ b, (LogBuffer.mk [] 5 0 0).run
        [.append "before", .reset, .append "after", .linesSince 0] = some b ∧
      b.RunID = 1 := by
  have h := C3_reset_and_runID.2.2.2 5 (LogBuffer.mk [] 5 0 0)
    [.append "before", .reset, .append "after", .linesSince 0] (by decide) rfl
  simpa [countResets] using h

/-- C4: after any sequence of `Append`, `Reset` and `LinesSince` calls on a new buffer of
capacity `cap ≥ 1` the calls have succeeded, at most `cap` lines are stored, and their number
is `min(total, cap)` for the `total` that `Total()` reports. -/
theorem C4_stored_lines_bounded (capacity : Nat) (hcap : 1 ≤ capacity) (b0 : LogBuffer)
    (h0 : NewLogBuffer (capacity : Int) = some b0) (ops : List Op) :
    ∃ b, b0.run ops = some b ∧ b.cap = capacity ∧ b.lines.length ≤ capacity ∧
      (b.lines.length : Int) = min b.Total (capacity : Int) := by
  obtain ⟨b, e, ⟨hc, -, htot, hlen, -⟩, -⟩ := reachable_inv hcap h0 ops
  refine ⟨b, e, hc, by omega, ?_⟩
  rw [LogBuffer.Total, htot, hlen]
  push_cast
  rfl

/-- Witness of C4: capacity 2, three appends and a read. -/
theorem C4_stored_lines_bounded_witness :
    ∃ b, (LogBuffer.mk [] 2 0 0).run
        [.append "a", .append "b", .linesSince 0, .append "c"] = some b ∧ b.cap = (2 : Nat) ∧
      b.lines.length ≤ 2 ∧ (b.lines.length : Int) = min b.Total ((2 : Nat) : Int) :=
  C4_stored_lines_bounded 2 (by decide) (LogBuffer.mk [] 2 0 0) rfl
    [.append "a", .append "b", .linesSince 0, .append "c"]

/-- C5: every `Append` that returns has added exactly 1 to `Total()`, full buffer or not;
after any sequence of calls on a new buffer of capacity at least 1, `Total()` is the number of
`Append` calls made since construction or the most recent `Reset` (`LinesSince` calls do not
count); and further calls without a `Reset` never make it smaller. -/
theorem C5_total_counts_appends :
    (∀ (b b1 : LogBuffer) (line : String), b.Append line = some b1 →
      b1.Total = b.Total + 1) ∧
    (∀ (capacity : Nat) (b0 : LogBuffer) (ops : List Op), 1 ≤ capacity →
      NewLogBuffer (capacity : Int) = some b0 →
      ∃ b, b0.run ops = some b ∧ b.Total = (appendsSinceReset ops : Int)) ∧
    (∀ (capacity : Nat) (b0 : LogBuffer) (ops ops1 : List Op), 1 ≤ capacity →
      NewLogBuffer (capacity : Int) = some b0 → Op.reset ∉ ops1 →
      ∃ b b1, b0.run ops = some b ∧ b0.run (ops ++ ops1) = some b1 ∧ b.Total ≤ b1.Total) := by
  refine ⟨?_, ?_, ?_⟩
  · intro b b1 line h
    exact (LogBuffer.append_fields h).1
  · intro capacity b0 ops hcap h0
    obtain ⟨b, e, ⟨-, -, htot, -, -⟩, -⟩ := reachable_inv hcap h0 ops
    exact ⟨b, e, by rw [LogBuffer.Total, htot, appendsSinceReset_eq]⟩
  · intro capacity b0 ops ops1 hcap h0 hr
    obtain ⟨b, e, ⟨-, -, htot, -, -⟩, -⟩ := reachable_inv hcap h0 ops
    obtain ⟨b1, e1, ⟨-, -, htot1, -, -⟩, -⟩ := reachable_inv hcap h0 (ops ++ ops1)
    refine ⟨b, b1, e, e1, ?_⟩
    rw [LogBuffer.Total, LogBuffer.Total, htot, htot1]
    exact_mod_cast currentRun_length_mono ops ops1 hr

/-- Witness of C5: on a full buffer of capacity 1 a second `Append` still adds 1, and the
total after `Reset` counts the appends of the new run only. -/
theorem C5_total_counts_appends_witness :
    (LogBuffer.mk ["b"] 1 2 0).Total = (LogBuffer.mk ["a"] 1 1 0).Total + 1 ∧
    ∃ b, (LogBuffer.mk [] 1 0 0).run
        [.append "a", .append "b", .reset, .append "c", .linesSince 0] = some b ∧
      b.Total = 1 := by
  refine ⟨C5_total_counts_appends.1 (LogBuffer.mk ["a"] 1 1 0) (LogBuffer.mk ["b"] 1 2 0) "b"
    (by decide), ?_⟩
  have h := C5_total_counts_appends.2.1 1 (LogBuffer.mk [] 1 0 0)
    [.append "a", .append "b", .reset, .append "c", .linesSince 0] (by decide) rfl
  simpa [appendsSinceReset] using h

/-! ## The status endpoint -/

theorem LogBuffer.linesSince_fields {b : LogBuffer} {k : Int} {r : LinesResult}
    (h : b.LinesSince k = some r) : r.total = b.total ∧ r.runID = b.runID := by
  unfold LogBuffer.LinesSince at h
  simp only at h
  split_ifs at h
  all_goals try split at h
  all_goals try split at h
  all_goals first | (cases h; exact ⟨rfl, rfl⟩) | cases h

theorem atoi_empty : atoi "" = none := by decide

theorem clientParam_eq (v : String) (dflt : Int) :
    (if v ≠ "" then (match atoi v with | some n => n | none => dflt) else dflt)
      = queryInt v dflt := by
  unfold queryInt
  by_cases h : v = ""
  · subst h; rw [if_neg (by simp), atoi_empty]; rfl
  · rw [if_pos h]; cases atoi v <;> rfl

theorem appendLogData_eq (b b1 : LogBuffer) (logOffset logRunId : String)
    (hrun : b.RunID ≠ 0) :
    appendLogData b b1 logOffset logRunId =
      (b1.LinesSince (if queryInt logRunId (-1) ≠ b.RunID then 0
        else queryInt logOffset 0)).map logDataOf := by
  unfold appendLogData
  simp only [clientParam_eq, if_neg hrun]
  cases b1.LinesSince (if queryInt logRunId (-1) ≠ b.RunID then 0 else queryInt logOffset 0) with
  | none => rfl
  | some r =>
    cases r with
    | mk lines total runID => cases lines <;> rfl

/-- Evaluation for C6 at the failing input.  The buffer is in run 1 and holds two lines when
a status request with `log_offset=2&log_run_id=1` reads `RunID()`; before the request reads
`LinesSince`, a start request resets the buffer and three lines of the new run are appended.
The answer carries the run id 2, which differs from the client's run id 1, and only the third
line of the new run: the offset was chosen against the run id read first.  `LinesSince(0)` on
that buffer returns the three lines.  In general the offset is chosen by the buffer of the
first read and the answer comes from the buffer of the second; when the buffer is the same at
both reads, the answer is that of `LinesSince(0)` for a differing `log_run_id` and of
`LinesSince(log_offset)` for an equal one, with the buffer's total and `runID` and the source
`"launcher"`, as for the buffer after `Reset`, `"A"`, `"B"` queried with
`log_offset=5&log_run_id=0`. -/
theorem C6_reset_between_reads :
    (NewLogBuffer 200).bind (fun b => b.run [.reset, .append "old1", .append "old2"])
      = some (LogBuffer.mk ["old1", "old2"] 200 2 1) ∧
    (LogBuffer.mk ["old1", "old2"] 200 2 1).run
        [.reset, .append "new1", .append "new2", .append "new3"]
      = some (LogBuffer.mk ["new1", "new2", "new3"] 200 3 2) ∧
    appendLogData (LogBuffer.mk ["old1", "old2"] 200 2 1)
        (LogBuffer.mk ["new1", "new2", "new3"] 200 3 2) "2" "1"
      = some ⟨["new3"], 3, 2, "launcher"⟩ ∧
    (LogBuffer.mk ["new1", "new2", "new3"] 200 3 2).LinesSince 0
      = some ⟨some ["new1", "new2", "new3"], 3, 2⟩ ∧
    (∀ (b b1 : LogBuffer) (logOffset logRunId : String), b.RunID ≠ 0 →
      appendLogData b b1 logOffset logRunId =
        (b1.LinesSince (if queryInt logRunId (-1) ≠ b.RunID then 0
          else queryInt logOffset 0)).map logDataOf) ∧
    (∀ (b : LogBuffer) (logOffset logRunId : String), b.RunID ≠ 0 →
      (queryInt logRunId (-1) ≠ b.RunID →
        appendLogData b b logOffset logRunId = (b.LinesSince 0).map logDataOf) ∧
      (queryInt logRunId (-1) = b.RunID →
        appendLogData b b logOffset logRunId
          = (b.LinesSince (queryInt logOffset 0)).map logDataOf) ∧
      (∀ d, appendLogData b b logOffset logRunId = some d →
        d.log_total = b.Total ∧ d.log_run_id = b.RunID ∧ d.log_source = "launcher")) ∧
    appendLogData (LogBuffer.mk ["A", "B"] 200 2 1) (LogBuffer.mk ["A", "B"] 200 2 1) "5" "0"
      = some ⟨["A", "B"], 2, 1, "launcher"⟩ := by
  refine ⟨by decide, by decide, by decide, by decide, appendLogData_eq, ?_, by decide⟩
  intro b logOffset logRunId hrun
  have heq := appendLogData_eq b b logOffset logRunId hrun
  refine ⟨?_, ?_, ?_⟩
  · intro h; rw [heq, if_pos h]
  · intro h; rw [heq, if_neg (by simpa using h)]
  · intro d hd
    rw [heq] at hd
    obtain ⟨r, hr, rfl⟩ := Option.map_eq_some'.mp hd
    obtain ⟨h1, h2⟩ := LogBuffer.linesSince_fields hr
    exact ⟨h1, h2, rfl⟩

/-! ## The processed-ID set of the QQ channel -/

theorem evictLoop_eq (order : List String) : ∀ (m : Finset String) (count : Nat),
    evictLoop m order count = m \ (order.take (5000 - count)).toFinset := by
  induction order with
  | nil => intro m count; simp [evictLoop]
  | cons id rest ih =>
    intro m count
    unfold evictLoop
    split_ifs with h
    · have : 5000 - count = 0 := by omega
      simp [this]
    · have : 5000 - count = (5000 - (count + 1)) + 1 := by omega
      rw [ih, this, List.take_succ_cons, List.toFinset_cons]
      ext x
      simp only [Finset.mem_sdiff, Finset.mem_erase, Finset.mem_insert]
      tauto

theorem evictLoop_subset (m : Finset String) (order : List String) (count : Nat) :
    evictLoop m order count ⊆ m := by
  rw [evictLoop_eq]; exact Finset.sdiff_subset

theorem evictLoop_card {m : Finset String} {order : List String} (h : IsRangeOrder m order)
    (hm : 5000 ≤ m.card) :
    (m \ evictLoop m order 0).card = 5000 ∧ (evictLoop m order 0).card = m.card - 5000 := by
  obtain ⟨hnd, hfin⟩ := h
  have hlen : order.length = m.card := by
    rw [← hfin, List.toFinset_card_of_nodup hnd]
  have hsub : (order.take 5000).toFinset ⊆ m := by
    rw [← hfin]
    intro x hx
    rw [List.mem_toFinset] at hx ⊢
    exact List.mem_of_mem_take hx
  have hcard : (order.take 5000).toFinset.card = 5000 := by
    rw [List.toFinset_card_of_nodup (hnd.sublist (List.take_sublist _ _)), List.length_take]
    omega
  rw [evictLoop_eq, Nat.sub_zero, Finset.sdiff_sdiff_eq_self hsub]
  refine ⟨hcard, ?_⟩
  rw [Finset.card_sdiff hsub, hcard]

theorem QQChannel.isDuplicate_snd (c : QQChannel) (id : String) (order : List String) :
    (c.isDuplicate id order).2 =
      if id ∈ c.processedIDs then c
      else if (insert id c.processedIDs).card > 10000 then
        ⟨evictLoop (insert id c.processedIDs) order 0⟩
      else ⟨insert id c.processedIDs⟩ := by
  simp only [QQChannel.isDuplicate]
  split_ifs <;> rfl

theorem QQChannel.isDuplicate_fst (c : QQChannel) (id : String) (order : List String) :
    (c.isDuplicate id order).1 = decide (id ∈ c.processedIDs) := by
  simp only [QQChannel.isDuplicate]
  split_ifs <;> simp [*]

theorem QQChannel.isDuplicate_card {c : QQChannel} {id : String} {order : List String}
    (hc : c.processedIDs.card ≤ 10000)
    (ho : id ∉ c.processedIDs → (insert id c.processedIDs).card > 10000 →
      IsRangeOrder (insert id c.processedIDs) order) :
    (c.isDuplicate id order).2.processedIDs.card ≤ 10000 := by
  rw [QQChannel.isDuplicate_snd]
  split_ifs with h1 h2
  · exact hc
  · have hins : (insert id c.processedIDs).card = c.processedIDs.card + 1 :=
      Finset.card_insert_of_not_mem h1
    have := (evictLoop_card (ho h1 h2) (by omega)).2
    simp only [this]
    omega
  · simpa using h2

theorem QQChannel.deliver_card : ∀ (calls : List (String × List String)) (c : QQChannel),
    c.processedIDs.card ≤ 10000 → RangeOrders c calls →
    (c.deliver calls).processedIDs.card ≤ 10000 := by
  intro calls
  induction calls with
  | nil => intro c hc _; exact hc
  | cons call rest ih =>
    intro c hc hv
    obtain ⟨id, order⟩ := call
    obtain ⟨h1, h2⟩ := hv
    exact ih _ (QQChannel.isDuplicate_card hc h1) h2

/-- C7: `isDuplicate(id)` returns true exactly when `id` is in the processed-ID set at the
time of the call; a call that returns true leaves the set as it was; after a call that
returns false the set is the old one with `id` inserted, on which the clean-up loop has then
run if that set has more than 10,000 entries. -/
theorem C7_isDuplicate_membership (c : QQChannel) (id : String) (order : List String) :
    ((c.isDuplicate id order).1 = true ↔ id ∈ c.processedIDs) ∧
    ((c.isDuplicate id order).1 = true → (c.isDuplicate id order).2 = c) ∧
    ((c.isDuplicate id order).1 = false →
      (c.isDuplicate id order).2.processedIDs =
        if (insert id c.processedIDs).card > 10000 then
          evictLoop (insert id c.processedIDs) order 0
        else insert id c.processedIDs) := by
  rw [QQChannel.isDuplicate_fst, QQChannel.isDuplicate_snd]
  refine ⟨by simp, ?_, ?_⟩
  · intro h
    rw [if_pos (by simpa using h)]
  · intro h
    rw [if_neg (by simpa using h)]
    split_ifs <;> rfl

/-- Witness of C7: a second delivery of `"abc"` is a duplicate and leaves the set as it
was. -/
theorem C7_isDuplicate_membership_witness :
    (QQChannel.mk {"abc"}).isDuplicate "abc" [] = (true, QQChannel.mk {"abc"}) := by
  have h := C7_isDuplicate_membership (QQChannel.mk {"abc"}) "abc" []
  have h1 : ((QQChannel.mk {"abc"}).isDuplicate "abc" []).1 = true := h.1.mpr (by decide)
  exact Prod.ext h1 (h.2.1 h1)

/-- C8: after any sequence of `isDuplicate` calls on a new channel the set holds at most
10,000 ids; a further call in which the insertion brings the set to 10,001 entries deletes
exactly 5,000 of them and leaves 5,001; any other call deletes nothing.  The iteration order
of each clean-up loop is a possible one for `range` over the map. -/
theorem C8_processedIDs_bounded (calls : List (String × List String))
    (hvalid : RangeOrders NewQQChannel calls) :
    (NewQQChannel.deliver calls).processedIDs.card ≤ 10000 ∧
    ∀ (id : String) (order : List String),
      (id ∉ (NewQQChannel.deliver calls).processedIDs →
        (insert id (NewQQChannel.deliver calls).processedIDs).card > 10000 →
        IsRangeOrder (insert id (NewQQChannel.deliver calls).processedIDs) order) →
      (insert id (NewQQChannel.deliver calls).processedIDs).card ≤ 10001 ∧
      (id ∉ (NewQQChannel.deliver calls).processedIDs →
        (insert id (NewQQChannel.deliver calls).processedIDs).card = 10001 →
        ((NewQQChannel.deliver calls).isDuplicate id order).2.processedIDs ⊆
            insert id (NewQQChannel.deliver calls).processedIDs ∧
          (insert id (NewQQChannel.deliver calls).processedIDs \
            ((NewQQChannel.deliver calls).isDuplicate id order).2.processedIDs).card = 5000 ∧
          ((NewQQChannel.deliver calls).isDuplicate id order).2.processedIDs.card = 5001) ∧
      (¬ (id ∉ (NewQQChannel.deliver calls).processedIDs ∧
          (insert id (NewQQChannel.deliver calls).processedIDs).card = 10001) →
        (NewQQChannel.deliver calls).processedIDs ⊆
          ((NewQQChannel.deliver calls).isDuplicate id order).2.processedIDs) := by
  have hcard := QQChannel.deliver_card calls NewQQChannel (by simp [NewQQChannel]) hvalid
  refine ⟨hcard, ?_⟩
  intro id order ho
  generalize NewQQChannel.deliver calls = c at hcard ho ⊢
  have hle : (insert id c.processedIDs).card ≤ 10001 :=
    le_trans (Finset.card_insert_le _ _) (by omega)
  refine ⟨hle, ?_, ?_⟩
  · intro h1 h2
    have hgt : (insert id c.processedIDs).card > 10000 := by omega
    rw [QQChannel.isDuplicate_snd, if_neg h1, if_pos hgt]
    obtain ⟨e1, e2⟩ := evictLoop_card (ho h1 hgt) (by omega)
    exact ⟨evictLoop_subset _ _ _, e1, by rw [e2, h2]⟩
  · intro hn
    rw [QQChannel.isDuplicate_snd]
    split_ifs with h1 h2
    · exact subset_rfl
    · exact absurd ⟨h1, by omega⟩ hn
    · exact Finset.subset_insert _ _

/-- Witness of C8: after the deliveries of `"a"`, `"b"` and again `"a"` the set holds two
ids. -/
theorem C8_processedIDs_bounded_witness :
    (NewQQChannel.deliver [("a", []), ("b", []), ("a", [])]).processedIDs.card ≤ 10000 :=
  (C8_processedIDs_bounded [("a", []), ("b", []), ("a", [])]
    (by simp [RangeOrders, NewQQChannel, QQChannel.isDuplicate])).1

theorem msgId_injective : Function.Injective msgId := by
  intro i j h
  have h1 : (List.replicate (i + 1) 'a').length = (List.replicate (j + 1) 'a').length :=
    congrArg (fun t : String => t.data.length) h
  simpa using h1

theorem seenBefore_nodup : seenBefore.Nodup := by
  rw [seenBefore]
  exact (List.nodup_range 10000).map msgId_injective

theorem seenBefore_length : seenBefore.length = 10000 := by
  simp [seenBefore]

theorem msgId_not_mem_seenBefore : msgId 10000 ∉ seenBefore := by
  intro h
  rw [seenBefore] at h
  obtain ⟨i, hi, he⟩ := List.mem_map.mp h
  have := msgId_injective he
  rw [List.mem_range] at hi
  omega

theorem QQChannel.deliver_fresh : ∀ (l : List String) (c : QQChannel),
    (∀ x ∈ l, x ∉ c.processedIDs) → l.Nodup → c.processedIDs.card + l.length ≤ 10000 →
    c.deliver (l.map (fun id => (id, []))) = ⟨c.processedIDs ∪ l.toFinset⟩ ∧
      RangeOrders c (l.map (fun id => (id, []))) := by
  intro l
  induction l with
  | nil => intro c _ _ _; simp [QQChannel.deliver, RangeOrders]
  | cons x rest ih =>
    intro c hnot hnd hlen
    have hx : x ∉ c.processedIDs := hnot x (List.mem_cons_self _ _)
    have hcard : (insert x c.processedIDs).card = c.processedIDs.card + 1 :=
      Finset.card_insert_of_not_mem hx
    simp only [List.length_cons] at hlen
    have hle : ¬ (insert x c.processedIDs).card > 10000 := by omega
    have hstep : (c.isDuplicate x []).2 = ⟨insert x c.processedIDs⟩ := by
      rw [QQChannel.isDuplicate_snd, if_neg hx, if_neg hle]
    obtain ⟨hxr, hndr⟩ := List.nodup_cons.mp hnd
    have hnot1 : ∀ y ∈ rest, y ∉ (QQChannel.mk (insert x c.processedIDs)).processedIDs := by
      intro y hy hmem
      rcases Finset.mem_insert.mp hmem with h | h
      · exact hxr (h ▸ hy)
      · exact hnot y (List.mem_cons_of_mem _ hy) h
    obtain ⟨e1, e2⟩ := ih ⟨insert x c.processedIDs⟩ hnot1 hndr (by simp only [hcard]; omega)
    simp only [List.map_cons, QQChannel.deliver, RangeOrders, hstep]
    refine ⟨?_, fun _ h => absurd h hle, e2⟩
    rw [e1]
    congr 1
    ext y
    simp only [Finset.mem_union, Finset.mem_insert, List.mem_toFinset, List.mem_cons]
    tauto

/-- Evaluation for C9 at the failing input.  The ten thousand ids of `seenBefore` have been
delivered to a new channel; the id `msgId 10000` is delivered next and the clean-up loop
iterates over the map with that id first, a possible order.  The call returns false, and so
does every immediately following delivery of the same id. -/
theorem C9_redelivery_after_cleanup :
    RangeOrders NewQQChannel (seenBefore.map (fun id => (id, []))) ∧
    NewQQChannel.deliver (seenBefore.map (fun id => (id, []))) = ⟨seenBefore.toFinset⟩ ∧
    IsRangeOrder (insert (msgId 10000) seenBefore.toFinset) (msgId 10000 :: seenBefore) ∧
    ((QQChannel.mk seenBefore.toFinset).isDuplicate (msgId 10000)
      (msgId 10000 :: seenBefore)).1 = false ∧
    ∀ order : List String,
      ((((QQChannel.mk seenBefore.toFinset).isDuplicate (msgId 10000)
        (msgId 10000 :: seenBefore)).2).isDuplicate (msgId 10000) order).1 = false := by
  have hfresh := QQChannel.deliver_fresh seenBefore NewQQChannel
    (by intro x _; simp [NewQQChannel]) seenBefore_nodup
    (by rw [seenBefore_length]; simp [NewQQChannel])
  have hnew : msgId 10000 ∉ seenBefore.toFinset := by
    rw [List.mem_toFinset]; exact msgId_not_mem_seenBefore
  have hcard : (insert (msgId 10000) seenBefore.toFinset).card > 10000 := by
    rw [Finset.card_insert_of_not_mem hnew, List.toFinset_card_of_nodup seenBefore_nodup,
      seenBefore_length]
    omega
  refine And.intro hfresh.2 (And.intro ?_ (And.intro ?_ (And.intro ?_ ?_)))
  · rw [hfresh.1]; simp [NewQQChannel]
  · refine ⟨List.nodup_cons.mpr ⟨msgId_not_mem_seenBefore, seenBefore_nodup⟩, ?_⟩
    rw [List.toFinset_cons]
  · rw [QQChannel.isDuplicate_fst]; simpa using msgId_not_mem_seenBefore
  · intro order
    rw [QQChannel.isDuplicate_fst, QQChannel.isDuplicate_snd, if_neg hnew, if_pos hcard]
    have hgone : msgId 10000 ∉
        evictLoop (insert (msgId 10000) seenBefore.toFinset) (msgId 10000 :: seenBefore) 0 := by
      rw [evictLoop, if_neg (by omega)]
      intro hmem
      exact Finset.not_mem_erase _ _ (evictLoop_subset _ _ _ hmem)
    simpa using hgone

/-! ## The reconnect back-off of the WhatsApp channel -/

theorem nextBackoff_min (p : Int) (hp : 0 < p) :
    nextBackoff (min p reconnectMax) = min (2 * p) reconnectMax := by
  unfold nextBackoff reconnectMultiplier reconnectMax second
  simp only [min_def]
  split_ifs <;> omega

theorem reconnectLoop_cons_failed (backoff : Int) (rest : List Attempt) :
    reconnectLoop backoff (failedAttempt :: rest)
      = backoff :: reconnectLoop (nextBackoff backoff) rest := rfl

theorem reconnectLoop_failed (N : Nat) : ∀ (n : Nat),
    reconnectLoop (min (5 * 2 ^ n * second) reconnectMax) (List.replicate N failedAttempt)
      = (List.range' n N).map (fun i => min (5 * 2 ^ i) 300 * second) := by
  induction N with
  | zero => intro n; rfl
  | succ N ih =>
    intro n
    have hpos : (0 : Int) < 5 * 2 ^ n * second := by
      have : (0 : Int) < 2 ^ n := by positivity
      unfold second; omega
    have hnext : nextBackoff (min (5 * 2 ^ n * second) reconnectMax)
        = min (5 * 2 ^ (n + 1) * second) reconnectMax := by
      rw [nextBackoff_min _ hpos]; congr 1; ring
    have hhead : min (5 * 2 ^ n * second) reconnectMax = min (5 * 2 ^ n) 300 * second := by
      unfold reconnectMax second
      simp only [min_def]
      split_ifs <;> omega
    rw [List.replicate_succ, List.range'_succ, List.map_cons, reconnectLoop_cons_failed,
      hnext, ih (n + 1), hhead]

theorem backoff_mono {i j : Nat} (h : i ≤ j) :
    min (5 * 2 ^ i) 300 * second ≤ min (5 * 2 ^ j) (300 : Int) * second := by
  have h1 : (2 : Int) ^ i ≤ 2 ^ j := pow_le_pow_right₀ (by norm_num) h
  have h2 : min (5 * 2 ^ i) (300 : Int) ≤ min (5 * 2 ^ j) 300 :=
    min_le_min (by omega) (le_refl _)
  unfold second
  omega

/-- C10: when every `Connect` fails and the run context is never cancelled, the wait after the
`n`-th failed attempt is `min(5 * 2^n, 300)` seconds, for every number of attempts; no wait
is above 5 minutes, the waits never decrease, they start 5, 10, 20, 40, 80, 160, 300, 300
seconds, and the attempts start after 0, 5, 15, 35, 75, 155 and 315 seconds of waiting. -/
theorem C10_backoff_schedule :
    (∀ N : Nat, reconnectWithBackoff (List.replicate N failedAttempt)
      = (List.range N).map (fun n => min (5 * 2 ^ n) 300 * second)) ∧
    (∀ N : Nat, ∀ w ∈ reconnectWithBackoff (List.replicate N failedAttempt),
      w ≤ reconnectMax ∧ w ≤ 300 * second) ∧
    (∀ N : Nat, (reconnectWithBackoff (List.replicate N failedAttempt)).Pairwise (· ≤ ·)) ∧
    reconnectWithBackoff (List.replicate 8 failedAttempt)
      = [5 * second, 10 * second, 20 * second, 40 * second, 80 * second, 160 * second,
          300 * second, 300 * second] ∧
    attemptStarts (reconnectWithBackoff (List.replicate 6 failedAttempt))
      = [0, 5 * second, 15 * second, 35 * second, 75 * second, 155 * second,
          315 * second] := by
  have hall : ∀ N : Nat, reconnectWithBackoff (List.replicate N failedAttempt)
      = (List.range N).map (fun n => min (5 * 2 ^ n) 300 * second) := by
    intro N
    have h := reconnectLoop_failed N 0
    have h0 : min (5 * 2 ^ 0 * second) reconnectMax = reconnectInitial := by decide
    rw [h0] at h
    rw [reconnectWithBackoff, h, List.range_eq_range']
  refine ⟨hall, ?_, ?_, by decide, by decide⟩
  · intro N w hw
    rw [hall] at hw
    obtain ⟨n, -, rfl⟩ := List.mem_map.mp hw
    have : min (5 * 2 ^ n) (300 : Int) ≤ 300 := min_le_right _ _
    unfold reconnectMax second
    constructor <;> omega
  · intro N
    rw [hall, List.pairwise_map]
    exact (List.pairwise_lt_range N).imp (fun h => backoff_mono (le_of_lt h))

/-! ## The lifecycle of the WhatsApp channel -/

theorem WAState.step_stopping (s : WAState) (e : WAEvent) (h : s.stopping = true) :
    (s.step e).wg ≤ s.wg ∧ (s.step e).loops ≤ s.loops ∧
      (s.step e).qrHandlers ≤ s.qrHandlers ∧
      (e ≠ .startReset → (s.step e).stopping = true) := by
  refine ⟨?_, ?_, ?_, ?_⟩ <;> cases e <;> simp only [WAState.step] <;>
    (try split_ifs) <;> simp_all

/-- C11: with every critical section of `reconnectMu` taken as one atomic step, from a state
in which `stopping` is set (as `Stop` leaves it) and over every sequence of steps that has no
`Start` reset in it, `stopping` stays set, and no step adds to the WaitGroup counter or starts
a goroutine: neither the `Disconnected` handler nor the QR branch of `Start` performs
`wg.Add`. -/
theorem C11_no_add_while_stopping (s : WAState) (es : List WAEvent)
    (hstop : s.stopping = true) (hno : WAEvent.startReset ∉ es) :
    (s.step .stopMark).stopping = true ∧
    (s.run es).stopping = true ∧
    (∀ e : WAEvent, ((s.run es).step e).wg ≤ (s.run es).wg ∧
      ((s.run es).step e).loops ≤ (s.run es).loops ∧
      ((s.run es).step e).qrHandlers ≤ (s.run es).qrHandlers) ∧
    (s.run es).wg ≤ s.wg ∧ (s.run es).loops ≤ s.loops ∧
    (s.run es).qrHandlers ≤ s.qrHandlers := by
  refine ⟨rfl, ?_⟩
  induction es generalizing s with
  | nil =>
    refine ⟨hstop, fun e => ?_, le_refl _, le_refl _, le_refl _⟩
    obtain ⟨h1, h2, h3, -⟩ := WAState.step_stopping s e hstop
    exact ⟨h1, h2, h3⟩
  | cons e es ih =>
    have hne : e ≠ .startReset := fun hh => hno (by simp [hh])
    have hno1 : WAEvent.startReset ∉ es := fun hh => hno (List.mem_cons_of_mem _ hh)
    obtain ⟨h1, h2, h3, h4⟩ := WAState.step_stopping s e hstop
    obtain ⟨i1, i2, i3, i4, i5⟩ := ih (s.step e) (h4 hne) hno1
    exact ⟨i1, i2, le_trans i3 h1, le_trans i4 h2, le_trans i5 h3⟩

/-- Witness of C11: after `Start`, a `Disconnected` event and `Stop`, a second `Disconnected`
event and a QR branch leave the WaitGroup counter as it was. -/
theorem C11_no_add_while_stopping_witness :
    ((WAState.mk true true 1 1 0).run [.disconnected, .loopExit, .disconnected, .startQR]).wg
      ≤ 1 :=
  (C11_no_add_while_stopping (WAState.mk true true 1 1 0)
    [.disconnected, .loopExit, .disconnected, .startQR] rfl (by decide)).2.2.2.1

theorem WAState.run_reconnecting (s : WAState) (es : List WAEvent)
    (h : s.reconnecting = true → 1 ≤ s.loops) :
    (s.run es).reconnecting = true → 1 ≤ (s.run es).loops := by
  induction es generalizing s with
  | nil => exact h
  | cons e es ih =>
    apply ih
    cases e <;> simp only [WAState.step]
    · intro hh; cases hh
    · split_ifs <;> exact h
    · exact h
    · split_ifs
      · exact h
      · exact h
      · intro _; exact Nat.le_add_left 1 s.loops
    · split_ifs
      · exact h
      · intro hh; cases hh
    · split_ifs <;> exact h

/-- Evaluation for C12 at the failing sequence.  A `Disconnected` event starts a reconnect
loop; `Stop` marks the channel as stopping and returns on its expired context while the loop
is still running; the next `Start` clears `reconnecting`, so the flag is false while a loop
is active, and the next `Disconnected` event starts a second loop.  In every reachable state
a set flag comes with an active loop, so the reset in `Start` changes the flag only when a
loop is still running. -/
theorem C12_two_loops_after_restart :
    (WAState.init.run [.startReset, .disconnected, .stopMark, .startReset]).loops = 1 ∧
    (WAState.init.run [.startReset, .disconnected, .stopMark, .startReset]).reconnecting
      = false ∧
    (WAState.init.run
      [.startReset, .disconnected, .stopMark, .startReset, .disconnected]).loops = 2 ∧
    (∀ es : List WAEvent, (WAState.init.run es).reconnecting = true →
      1 ≤ (WAState.init.run es).loops) :=
  ⟨by decide, by decide, by decide,
    fun es => WAState.run_reconnecting WAState.init es (fun h => by cases h)⟩

/-- C13: `Send` on a channel that is not running returns `ErrNotRunning`; on a running channel
with a context that is not cancelled it returns an error that wraps `ErrTemporary` when the
client is absent, is not connected, or is connected without a device id; in each of these
cases `SendMessage` is not called. -/
theorem C13_send_errors (running ctxDone : Bool) (client : Option WAClient)
    (msg : OutboundMessage) (libParseJID : String → Except String JID)
    (sendMessageFails : Bool) :
    (running = false →
      Send running ctxDone client msg libParseJID sendMessageFails
        = ⟨some (.sentinel .ErrNotRunning), none⟩) ∧
    (running = true → ctxDone = false →
      (client = none ∨ (∃ cl, client = some cl ∧ (cl.IsConnected = false ∨ cl.StoreID = none))) →
      (∃ e, (Send running ctxDone client msg libParseJID sendMessageFails).err = some e ∧
        e.is .ErrTemporary = true ∧ e ≠ .sentinel .ErrTemporary) ∧
      (Send running ctxDone client msg libParseJID sendMessageFails).sent = none) := by
  refine ⟨?_, ?_⟩
  · intro h; subst h; rfl
  · intro hr hc hcl
    subst hr; subst hc
    rcases hcl with h | ⟨cl, h, hconn | hid⟩
    · subst h
      exact ⟨⟨_, rfl, rfl, by simp⟩, rfl⟩
    · subst h
      simp only [Send, hconn]
      exact ⟨⟨_, rfl, rfl, by simp⟩, rfl⟩
    · subst h
      simp only [Send, hid]
      cases cl.IsConnected
      · exact ⟨⟨_, rfl, rfl, by simp⟩, rfl⟩
      · exact ⟨⟨_, rfl, rfl, by simp⟩, rfl⟩

/-- Witness of C13: a running channel whose client is connected but not yet paired. -/
theorem C13_send_errors_witness :
    (Send true false (some ⟨true, none⟩) ⟨"123", "hi"⟩ (fun _ => .error "bad") false).sent
      = none :=
  ((C13_send_errors true false (some ⟨true, none⟩) ⟨"123", "hi"⟩ (fun _ => .error "bad")
    false).2 rfl rfl (Or.inr ⟨⟨true, none⟩, rfl, Or.inr rfl⟩)).2

/-! ## The launcher's configuration updates -/

theorem markFirst_found (owned : String → Bool) (method : String) :
    ∀ l : List ModelConfig, (markFirst owned method l).2 = true →
      ∃ pre m post, l = pre ++ m :: post ∧ (∀ x ∈ pre, owned x.Model = false) ∧
        owned m.Model = true ∧
        (markFirst owned method l).1 = pre ++ { m with AuthMethod := method } :: post := by
  intro l
  induction l with
  | nil => intro h; simp [markFirst] at h
  | cons a l ih =>
    intro h
    by_cases ha : owned a.Model = true
    · refine ⟨[], a, l, rfl, by simp, ha, ?_⟩
      simp [markFirst, ha]
    · simp only [markFirst, ha, Bool.false_eq_true, if_false] at h ⊢
      obtain ⟨pre, m, post, e1, e2, e3, e4⟩ := ih h
      refine ⟨a :: pre, m, post, by rw [e1]; rfl, ?_, e3, by rw [e4]; rfl⟩
      intro x hx
      rcases List.mem_cons.mp hx with hx | hx
      · subst hx; simpa using ha
      · exact e2 x hx

theorem markFirst_not_found (owned : String → Bool) (method : String) :
    ∀ l : List ModelConfig, (markFirst owned method l).2 = false →
      (∀ x ∈ l, owned x.Model = false) ∧ (markFirst owned method l).1 = l := by
  intro l
  induction l with
  | nil => intro _; exact ⟨by simp, rfl⟩
  | cons a l ih =>
    intro h
    by_cases ha : owned a.Model = true
    · simp [markFirst, ha] at h
    · simp only [markFirst, ha, Bool.false_eq_true, if_false] at h ⊢
      obtain ⟨e1, e2⟩ := ih h
      refine ⟨?_, by rw [e2]⟩
      intro x hx
      rcases List.mem_cons.mp hx with hx | hx
      · subst hx; simpa using ha
      · exact e1 x hx

theorem markFirst_found_iff (owned : String → Bool) (method : String) (l : List ModelConfig) :
    (markFirst owned method l).2 = true ↔ ∃ x ∈ l, owned x.Model = true := by
  constructor
  · intro h
    obtain ⟨pre, m, post, e1, -, e3, -⟩ := markFirst_found owned method l h
    exact ⟨m, by rw [e1]; simp, e3⟩
  · intro ⟨x, hx, ho⟩
    by_contra hn
    have := (markFirst_not_found owned method l (by simpa using hn)).1 x hx
    rw [ho] at this
    cases this

theorem loginModels_spec (owned : String → Bool) (method modelName model : String)
    (cfg : Config) :
    (loginModels owned method modelName model cfg).Providers = cfg.Providers ∧
    ((∃ x ∈ cfg.ModelList, owned x.Model = true) →
      ∃ pre m post, cfg.ModelList = pre ++ m :: post ∧ (∀ x ∈ pre, owned x.Model = false) ∧
        owned m.Model = true ∧
        (loginModels owned method modelName model cfg).ModelList
          = pre ++ { m with AuthMethod := method } :: post) ∧
    ((∀ x ∈ cfg.ModelList, owned x.Model = false) →
      (loginModels owned method modelName model cfg).ModelList
        = cfg.ModelList ++ [⟨modelName, model, method, []⟩]) := by
  refine ⟨rfl, ?_, ?_⟩
  · intro h
    have hf := (markFirst_found_iff owned method cfg.ModelList).mpr h
    obtain ⟨pre, m, post, e1, e2, e3, e4⟩ := markFirst_found owned method _ hf
    refine ⟨pre, m, post, e1, e2, e3, ?_⟩
    simp only [loginModels, hf, Bool.not_true, Bool.false_eq_true, if_false, e4]
  · intro h
    have hf : (markFirst owned method cfg.ModelList).2 = false := by
      by_contra hn
      obtain ⟨x, hx, ho⟩ := (markFirst_found_iff owned method cfg.ModelList).mp (by simpa using hn)
      rw [h x hx] at ho
      cases ho
    simp only [loginModels, hf, Bool.not_false, if_true,
      (markFirst_not_found owned method _ hf).2]

/-- C14: for `provider` among `openai`, `anthropic` and `google-antigravity`,
`updateConfigAfterLogin` sets the provider's own `auth_method` (`oauth`, `token`, `oauth`);
when `model_list` has an entry owned by the provider, the first such entry gets that
`auth_method`, its other fields and every other entry stay as they are and the list keeps its
length; otherwise the list is the old one with the provider's default entry (`gpt-5.2`,
`claude-sonnet-4.6`, `gemini-flash`), carrying that `auth_method`, appended at the end. -/
theorem C14_updateConfigAfterLogin (cfg : Config) (provider : String)
    (hp : provider = "openai" ∨ provider = "anthropic" ∨ provider = "google-antigravity") :
    providerAuthMethod (updateConfigAfterLogin cfg provider) provider = loginMethod provider ∧
    ((∃ x ∈ cfg.ModelList, ownedBy provider x.Model = true) →
      ∃ pre m post, cfg.ModelList = pre ++ m :: post ∧
        (∀ x ∈ pre, ownedBy provider x.Model = false) ∧ ownedBy provider m.Model = true ∧
        (updateConfigAfterLogin cfg provider).ModelList
          = pre ++ { m with AuthMethod := loginMethod provider } :: post ∧
        (updateConfigAfterLogin cfg provider).ModelList.length = cfg.ModelList.length) ∧
    ((∀ x ∈ cfg.ModelList, ownedBy provider x.Model = false) →
      (updateConfigAfterLogin cfg provider).ModelList
        = cfg.ModelList ++ [defaultEntry provider] ∧
      (defaultEntry provider).AuthMethod = loginMethod provider ∧
      ownedBy provider (defaultEntry provider).Model = true) := by
  rcases hp with h | h | h <;> subst h
  · have hs := loginModels_spec isOpenAIModel "oauth" "gpt-5.2" "openai/gpt-5.2"
      { cfg with Providers := { cfg.Providers with
          OpenAI := { cfg.Providers.OpenAI with AuthMethod := "oauth" } } }
    refine ⟨rfl, ?_, ?_⟩
    · intro hex
      obtain ⟨pre, m, post, e1, e2, e3, e4⟩ := hs.2.1 hex
      refine ⟨pre, m, post, e1, e2, e3, e4, ?_⟩
      have e5 : (updateConfigAfterLogin cfg "openai").ModelList
          = pre ++ { m with AuthMethod := "oauth" } :: post := e4
      rw [e5, show cfg.ModelList = pre ++ m :: post from e1]
      simp
    · intro hall
      exact ⟨hs.2.2 hall, rfl, by decide⟩
  · have hs := loginModels_spec isAnthropicModel "token" "claude-sonnet-4.6"
      "anthropic/claude-sonnet-4.6"
      { cfg with Providers := { cfg.Providers with
          Anthropic := { cfg.Providers.Anthropic with AuthMethod := "token" } } }
    refine ⟨rfl, ?_, ?_⟩
    · intro hex
      obtain ⟨pre, m, post, e1, e2, e3, e4⟩ := hs.2.1 hex
      refine ⟨pre, m, post, e1, e2, e3, e4, ?_⟩
      have e5 : (updateConfigAfterLogin cfg "anthropic").ModelList
          = pre ++ { m with AuthMethod := "token" } :: post := e4
      rw [e5, show cfg.ModelList = pre ++ m :: post from e1]
      simp
    · intro hall
      exact ⟨hs.2.2 hall, rfl, by decide⟩
  · have hs := loginModels_spec isAntigravityModel "oauth" "gemini-flash"
      "antigravity/gemini-3-flash"
      { cfg with Providers := { cfg.Providers with
          Antigravity := { cfg.Providers.Antigravity with AuthMethod := "oauth" } } }
    refine ⟨rfl, ?_, ?_⟩
    · intro hex
      obtain ⟨pre, m, post, e1, e2, e3, e4⟩ := hs.2.1 hex
      refine ⟨pre, m, post, e1, e2, e3, e4, ?_⟩
      have e5 : (updateConfigAfterLogin cfg "google-antigravity").ModelList
          = pre ++ { m with AuthMethod := "oauth" } :: post := e4
      rw [e5, show cfg.ModelList = pre ++ m :: post from e1]
      simp
    · intro hall
      exact ⟨hs.2.2 hall, rfl, by decide⟩

/-- Witness of C14: a configuration whose only model belongs to Anthropic; the login with
OpenAI appends the default OpenAI entry. -/
theorem C14_updateConfigAfterLogin_witness :
    (updateConfigAfterLogin
      ⟨⟨⟨"", []⟩, ⟨"", []⟩, ⟨"", []⟩, []⟩, [⟨"claude", "anthropic/claude-sonnet-4.6", "", []⟩], ""⟩
      "openai").ModelList
      = [⟨"claude", "anthropic/claude-sonnet-4.6", "", []⟩] ++ [defaultEntry "openai"] :=
  ((C14_updateConfigAfterLogin
    ⟨⟨⟨"", []⟩, ⟨"", []⟩, ⟨"", []⟩, []⟩, [⟨"claude", "anthropic/claude-sonnet-4.6", "", []⟩], ""⟩
    "openai" (Or.inl rfl)).2.2 (by decide)).1

theorem clearEntry_eq (provider : String) (m : ModelConfig)
    (hp : provider = "openai" ∨ provider = "anthropic" ∨ provider = "google-antigravity" ∨
      provider = "antigravity") :
    clearEntry provider m
      = if ownedBy provider m.Model = true then { m with AuthMethod := "" } else m := by
  rcases hp with h | h | h | h <;> subst h <;> simp [clearEntry, ownedBy]

/-- C15: for `provider` among `openai`, `anthropic`, `google-antigravity` and `antigravity`,
`clearAuthMethodInConfig` keeps the length and the order of `model_list`, sets `auth_method`
to empty on every entry owned by the provider and changes nothing else of it, leaves every
other entry as it is, sets the provider's own `auth_method` to empty, and leaves the other
providers' entries and the default model as they are. -/
theorem C15_clearAuthMethodInConfig (cfg : Config) (provider : String)
    (hp : provider = "openai" ∨ provider = "anthropic" ∨ provider = "google-antigravity" ∨
      provider = "antigravity") :
    (clearAuthMethodInConfig cfg provider).ModelList.length = cfg.ModelList.length ∧
    (∀ (i : Nat) (m : ModelConfig), cfg.ModelList[i]? = some m →
      (ownedBy provider m.Model = true →
        (clearAuthMethodInConfig cfg provider).ModelList[i]?
          = some { m with AuthMethod := "" }) ∧
      (ownedBy provider m.Model = false →
        (clearAuthMethodInConfig cfg provider).ModelList[i]? = some m)) ∧
    providerAuthMethod (clearAuthMethodInConfig cfg provider) provider = "" ∧
    (provider ≠ "openai" →
      (clearAuthMethodInConfig cfg provider).Providers.OpenAI = cfg.Providers.OpenAI) ∧
    (provider ≠ "anthropic" →
      (clearAuthMethodInConfig cfg provider).Providers.Anthropic = cfg.Providers.Anthropic) ∧
    (provider = "openai" ∨ provider = "anthropic" →
      (clearAuthMethodInConfig cfg provider).Providers.Antigravity
        = cfg.Providers.Antigravity) ∧
    (clearAuthMethodInConfig cfg provider).Providers.Rest = cfg.Providers.Rest ∧
    (clearAuthMethodInConfig cfg provider).AgentsDefaultsModelName
      = cfg.AgentsDefaultsModelName := by
  refine ⟨by simp [clearAuthMethodInConfig], ?_, ?_, ?_, ?_, ?_, ?_, rfl⟩
  · intro i m hm
    have hget : (clearAuthMethodInConfig cfg provider).ModelList[i]?
        = some (clearEntry provider m) := by
      simp [clearAuthMethodInConfig, List.getElem?_map, hm]
    rw [hget, clearEntry_eq provider m hp]
    constructor
    · intro h; rw [if_pos h]
    · intro h; rw [if_neg (by simp [h])]
  · rcases hp with h | h | h | h <;> subst h <;> rfl
  · intro hne
    rcases hp with h | h | h | h <;> subst h
    · exact absurd rfl hne
    all_goals rfl
  · intro hne
    rcases hp with h | h | h | h <;> subst h
    · rfl
    · exact absurd rfl hne
    all_goals rfl
  · intro hor
    rcases hor with h | h <;> subst h <;> rfl
  · rcases hp with h | h | h | h <;> subst h <;> rfl

/-- Witness of C15: logging out of OpenAI clears the OpenAI model and leaves the Anthropic
model as it is. -/
theorem C15_clearAuthMethodInConfig_witness :
    (clearAuthMethodInConfig
      ⟨⟨⟨"oauth", []⟩, ⟨"token", []⟩, ⟨"", []⟩, []⟩,
        [⟨"gpt-4o", "openai/gpt-4o", "oauth", []⟩,
          ⟨"claude", "anthropic/claude-sonnet-4.6", "token", []⟩], "gpt-4o"⟩
      "openai").ModelList[1]?
      = some ⟨"claude", "anthropic/claude-sonnet-4.6", "token", []⟩ :=
  ((C15_clearAuthMethodInConfig
    ⟨⟨⟨"oauth", []⟩, ⟨"token", []⟩, ⟨"", []⟩, []⟩,
      [⟨"gpt-4o", "openai/gpt-4o", "oauth", []⟩,
        ⟨"claude", "anthropic/claude-sonnet-4.6", "token", []⟩], "gpt-4o"⟩
    "openai" (Or.inl rfl)).2.1 1 ⟨"claude", "anthropic/claude-sonnet-4.6", "token", []⟩
    rfl).2 (by decide)

/-! ## The launcher's login handlers -/

theorem handleOAuthCallback_unknown (sessions : SessionMap) (state code errMsg : String)
    (env : AuthEnv) (h : sessions state = none) :
    handleOAuthCallback sessions state code errMsg env
      = ⟨400, .invalidState, sessions, none, none, none⟩ := by
  simp only [handleOAuthCallback, h]

theorem handleOAuthCallback_known (sessions : SessionMap) (state code errMsg : String)
    (env : AuthEnv) (session : oauthSession) (h : sessions state = some session) :
    (handleOAuthCallback sessions state code errMsg env).sessions = sessions.delete state := by
  simp only [handleOAuthCallback, h]
  split_ifs
  all_goals (try rfl)
  all_goals (split <;> try rfl)
  all_goals (split <;> rfl)

/-- C16: `handleOAuthCallback` asks for the token exchange only when the `state` parameter is
a key of the session map, and then that key is no longer in the map and the other keys are
as before; for a `state` that is not a key it answers 400, passes no credential to
`SetCredential`, updates no configuration and leaves the map as it is; and after any
callback a further callback with the same `state` is answered with 400. -/
theorem C16_oauth_session_single_use (sessions : SessionMap) (state code errMsg : String)
    (env : AuthEnv) :
    ((handleOAuthCallback sessions state code errMsg env).exchanged ≠ none →
      sessions state ≠ none ∧
      (handleOAuthCallback sessions state code errMsg env).sessions state = none ∧
      ∀ k, k ≠ state →
        (handleOAuthCallback sessions state code errMsg env).sessions k = sessions k) ∧
    (sessions state = none →
      (handleOAuthCallback sessions state code errMsg env).status = 400 ∧
      (handleOAuthCallback sessions state code errMsg env).exchanged = none ∧
      (handleOAuthCallback sessions state code errMsg env).setCredential = none ∧
      (handleOAuthCallback sessions state code errMsg env).configUpdated = none ∧
      (handleOAuthCallback sessions state code errMsg env).sessions = sessions) ∧
    (∀ (code2 errMsg2 : String) (env2 : AuthEnv),
      (handleOAuthCallback (handleOAuthCallback sessions state code errMsg env).sessions
        state code2 errMsg2 env2).status = 400) := by
  have hafter : (handleOAuthCallback sessions state code errMsg env).sessions state = none := by
    cases h : sessions state with
    | none => rw [handleOAuthCallback_unknown _ _ _ _ _ h]; exact h
    | some session =>
      rw [handleOAuthCallback_known _ _ _ _ _ session h]
      simp [SessionMap.delete]
  refine ⟨?_, ?_, ?_⟩
  · intro hex
    cases h : sessions state with
    | none =>
      rw [handleOAuthCallback_unknown _ _ _ _ _ h] at hex
      exact absurd rfl hex
    | some session =>
      refine ⟨by simp, hafter, ?_⟩
      intro k hk
      rw [handleOAuthCallback_known _ _ _ _ _ session h]
      simp [SessionMap.delete, hk]
  · intro h
    rw [handleOAuthCallback_unknown _ _ _ _ _ h]
    exact ⟨rfl, rfl, rfl, rfl, rfl⟩
  · intro code2 errMsg2 env2
    rw [handleOAuthCallback_unknown _ _ _ _ _ hafter]

/-- Witness of C16: a callback with a state that no session has, on the empty map. -/
theorem C16_oauth_session_single_use_witness :
    (handleOAuthCallback (fun _ => none) "invalid-state" "abc" ""
      ⟨fun _ _ _ _ => .error "", fun _ => .error "", fun _ => .error "", fun _ _ => none⟩).status
      = 400 :=
  ((C16_oauth_session_single_use (fun _ => none) "invalid-state" "abc" ""
    ⟨fun _ _ _ _ => .error "", fun _ => .error "", fun _ => .error "",
      fun _ _ => none⟩).2.1 rfl).1

/-- C17: when `activeDeviceSession` holds a session that is not `Done`, `handleOpenAILogin`
answers with status `"pending"` and that session's `user_code` and `device_url`, does not
call `RequestDeviceCode`, starts no poller and leaves `activeDeviceSession` as it is. -/
theorem C17_device_login_idempotent (s : deviceCodeSession) (configPath oauthCfg : String)
    (requestDeviceCode : Except String DeviceCodeInfo) (hpending : s.Done = false) :
    handleOpenAILogin (some s) configPath oauthCfg requestDeviceCode
      = ⟨200, some ⟨"pending", s.Info.VerifyURL, s.Info.UserCode,
          "Device code flow already in progress. Enter the code in your browser."⟩,
        some s, false, none⟩ := by
  simp only [handleOpenAILogin, hpending, Bool.not_false, if_true]

/-- Witness of C17: a second login request while the first session is pending, whatever a
new device-code request would have returned. -/
theorem C17_device_login_idempotent_witness :
    (handleOpenAILogin
      (some ⟨"openai", ⟨"dev-1", "ABCD-1234", "https://auth.example/device", 5⟩, "cfg",
        "config.json", "pending", "", false⟩)
      "config.json" "cfg" (.ok ⟨"dev-2", "WXYZ-9999", "https://auth.example/device", 5⟩)).response
      = some ⟨"pending", "https://auth.example/device", "ABCD-1234",
          "Device code flow already in progress. Enter the code in your browser."⟩ :=
  congrArg LoginResult.response
    (C17_device_login_idempotent
      ⟨"openai", ⟨"dev-1", "ABCD-1234", "https://auth.example/device", 5⟩, "cfg",
        "config.json", "pending", "", false⟩
      "config.json" "cfg" (.ok ⟨"dev-2", "WXYZ-9999", "https://auth.example/device", 5⟩) rfl)

/-! ## The text replacement of the edit tool -/

theorem Index_some : ∀ (s substr : List Char) (i : Nat), Index s substr = some i →
    s = s.take i ++ substr ++ s.drop (i + substr.length) ∧
      ∀ q t, s = q ++ substr ++ t → i ≤ q.length := by
  intro s
  induction s with
  | nil =>
    intro substr i h
    unfold Index at h
    split_ifs at h with hp
    cases h
    have : substr = [] := List.prefix_nil.mp (List.isPrefixOf_iff_prefix.mp hp)
    subst this
    exact ⟨by simp, fun _ _ _ => Nat.zero_le _⟩
  | cons c t ih =>
    intro substr i h
    unfold Index at h
    split_ifs at h with hp
    · cases h
      have hpre := List.isPrefixOf_iff_prefix.mp hp
      refine ⟨?_, fun _ _ _ => Nat.zero_le _⟩
      have := List.prefix_iff_eq_append.mp hpre
      simpa using this.symm
    · obtain ⟨i1, h1, rfl⟩ := Option.map_eq_some'.mp h
      obtain ⟨e1, e2⟩ := ih substr i1 h1
      refine ⟨?_, ?_⟩
      · have : i1 + 1 + substr.length = (i1 + substr.length) + 1 := by omega
        rw [this, List.take_succ_cons, List.drop_succ_cons, List.cons_append, List.cons_append,
          ← e1]
      · intro q t1 hq
        cases q with
        | nil =>
          exfalso
          apply hp
          rw [List.isPrefixOf_iff_prefix]
          exact ⟨t1, by simpa using hq.symm⟩
        | cons a q1 =>
          simp only [List.cons_append, List.cons.injEq] at hq
          have := e2 q1 t1 hq.2
          simp only [List.length_cons]
          omega

theorem Index_none : ∀ (s substr : List Char), Index s substr = none →
    ∀ q t, s ≠ q ++ substr ++ t := by
  intro s
  induction s with
  | nil =>
    intro substr h q t hq
    unfold Index at h
    split_ifs at h with hp
    apply hp
    have h1 : q ++ substr ++ t = [] := hq.symm
    simp only [List.append_eq_nil] at h1
    rw [h1.1.2]
    rfl
  | cons c t ih =>
    intro substr h q t1 hq
    unfold Index at h
    split_ifs at h with hp
    cases q with
    | nil =>
      apply hp
      rw [List.isPrefixOf_iff_prefix]
      exact ⟨t1, by simpa using hq.symm⟩
    | cons a q1 =>
      simp only [List.cons_append, List.cons.injEq] at hq
      exact ih substr (by simpa using h) q1 t1 hq.2

theorem Index_nil (s : List Char) : Index s [] = some 0 := by
  cases s <;> simp [Index, List.isPrefixOf]

theorem Count_pos (s substr : List Char) (i : Nat) (h : Index s substr = some i) :
    1 ≤ Count s substr := by
  unfold Count
  split_ifs
  · omega
  · simp only [countLoop, h]
    omega

theorem countLoop_fuel (substr : List Char) (hne : substr ≠ []) :
    ∀ (fuel : Nat) (s : List Char), s.length < fuel →
      countLoop substr (fuel + 1) s = countLoop substr fuel s := by
  intro fuel
  induction fuel with
  | zero => intro s h; omega
  | succ fuel ih =>
    intro s h
    rw [countLoop, countLoop]
    cases hi : Index s substr with
    | none => rfl
    | some i =>
      simp only
      have e := (Index_some s substr i hi).1
      have hlen : s.length = (s.take i).length + substr.length
          + (s.drop (i + substr.length)).length := by
        conv_lhs => rw [e]
        simp only [List.length_append]
      have hpos : 1 ≤ substr.length := by
        cases substr with
        | nil => exact absurd rfl hne
        | cons _ _ => simp
      rw [ih _ (by omega)]

theorem Replace_one (s old new : List Char) (i : Nat) (h : Index s old = some i) :
    Replace s old new 1 = s.take i ++ new ++ s.drop (i + old.length) := by
  have hs := (Index_some s old i h).1
  unfold Replace
  by_cases heq : old = new
  · rw [if_pos (Or.inl heq), ← heq]
    exact hs
  · have hn : ¬ (old = new ∨ (1 : Int) = 0) := by
      rintro (h1 | h1)
      · exact heq h1
      · omega
    have hm := Count_pos s old i h
    have hm0 : ¬ Count s old = 0 := by omega
    have hn1 : (if (1 : Int) < 0 ∨ ((Count s old : Nat) : Int) < 1 then ((Count s old : Nat) : Int)
        else 1) = 1 := by
      rw [if_neg]
      omega
    simp only [if_neg hn, if_neg hm0, hn1]
    have h1 : (1 : Int).toNat = 1 := rfl
    rw [h1]
    simp only [replaceLoop]
    by_cases ho : old = []
    · subst ho
      rw [Index_nil] at h
      cases h
      simp
    · simp [ho, h]

/-- C18: `replaceEditContent` returns an error exactly when `oldText` is not contained in
`content` or `strings.Count` counts more than one instance of it; otherwise it returns
`p ++ newText ++ s`, where `content = p ++ oldText ++ s` and no instance of `oldText` starts
before the end of `p`: the first instance is replaced and the rest of the text is kept. -/
theorem C18_replaceEditContent (content oldText newText : String) :
    ((∃ e, replaceEditContent content oldText newText = .error e) ↔
      (Contains content.toList oldText.toList = false ∨
        Count content.toList oldText.toList > 1)) ∧
    (¬ (Contains content.toList oldText.toList = false ∨
        Count content.toList oldText.toList > 1) →
      ∃ p s, content.toList = p ++ oldText.toList ++ s ∧
        (∀ q t, content.toList = q ++ oldText.toList ++ t → p.length ≤ q.length) ∧
        replaceEditContent content oldText newText
          = .ok (String.mk (p ++ newText.toList ++ s))) := by
  refine ⟨?_, ?_⟩
  · unfold replaceEditContent
    constructor
    · rintro ⟨e, he⟩
      by_contra hcon
      simp only [not_or, Bool.not_eq_false, not_lt] at hcon
      simp only [hcon.1, Bool.not_true, Bool.false_eq_true, if_false,
        if_neg (not_lt.mpr hcon.2)] at he
      cases he
    · rintro (h | h)
      · simp only [h, Bool.not_false, if_true]
        exact ⟨_, rfl⟩
      · by_cases hc : Contains content.toList oldText.toList = true
        · simp only [hc, Bool.not_true, Bool.false_eq_true, if_false, if_pos h]
          exact ⟨_, rfl⟩
        · simp only [Bool.not_eq_true] at hc
          simp only [hc, Bool.not_false, if_true]
          exact ⟨_, rfl⟩
  · intro hcon
    simp only [not_or, Bool.not_eq_false, not_lt] at hcon
    obtain ⟨hc, hcount⟩ := hcon
    obtain ⟨i, hi⟩ := Option.isSome_iff_exists.mp hc
    obtain ⟨e1, e2⟩ := Index_some _ _ i hi
    refine ⟨content.toList.take i, content.toList.drop (i + oldText.toList.length), e1, ?_, ?_⟩
    · intro q t hq
      have := e2 q t hq
      rw [List.length_take]
      omega
    · unfold replaceEditContent
      simp only [hc, Bool.not_true, Bool.false_eq_true, if_false, if_neg (not_lt.mpr hcount),
        Replace_one _ _ _ i hi]

/-- Witness of C18: the single instance of `world` is replaced. -/
theorem C18_replaceEditContent_witness :
    ∃ p s, "hello world".toList = p ++ "world".toList ++ s ∧
      (∀ q t, "hello world".toList = q ++ "world".toList ++ t → p.length ≤ q.length) ∧
      replaceEditContent "hello world" "world" "there"
        = .ok (String.mk (p ++ "there".toList ++ s)) :=
  (C18_replaceEditContent "hello world" "world" "there").2 (by decide)

/-- Evaluation for C19 at the failing input: in `aaa` the text `aa` matches at position 0 and
at position 1, `strings.Count` counts one instance (it skips the instances that overlap the
one it has counted), and `replaceEditContent` succeeds and replaces the instance at
position 0. -/
theorem C19_overlapping_matches :
    replaceEditContent "aaa" "aa" "b" = .ok "ba" ∧
    Count "aaa".toList "aa".toList = 1 ∧
    occursAt "aaa".toList "aa".toList 0 = true ∧
    occursAt "aaa".toList "aa".toList 1 = true :=
  ⟨rfl, by decide, by decide, by decide⟩

/-! ## The migration plan for one file -/

/-- C20: `planFileCopy(src, dst, force)` gives the action Skip with description
`"source file not found"` when `src` does not exist (as `os.Stat` reports it), else Backup
when `dst` exists (its `os.Stat` succeeds) and `force` is false, else Copy; the action's
`Source` is `src` and its `Target` is `dst` in every case; and the action depends on the file
system through these two facts only. -/
theorem C20_planFileCopy (stat : String → StatResult) (src dst : String) (force : Bool) :
    (stat src = .notExist →
      planFileCopy stat src dst force = ⟨.ActionSkip, src, dst, "source file not found"⟩) ∧
    (stat src ≠ .notExist → stat dst = .ok → force = false →
      (planFileCopy stat src dst force).Typ = .ActionBackup) ∧
    (stat src ≠ .notExist → ¬ (stat dst = .ok ∧ force = false) →
      (planFileCopy stat src dst force).Typ = .ActionCopy) ∧
    (planFileCopy stat src dst force).Source = src ∧
    (planFileCopy stat src dst force).Target = dst ∧
    (∀ stat1 : String → StatResult,
      (stat1 src = .notExist ↔ stat src = .notExist) → (stat1 dst = .ok ↔ stat dst = .ok) →
      planFileCopy stat1 src dst force = planFileCopy stat src dst force) := by
  refine ⟨?_, ?_, ?_, ?_, ?_, ?_⟩
  · intro h; simp [planFileCopy, h]
  · intro h1 h2 h3; simp [planFileCopy, h1, h2, h3]
  · intro h1 h2
    have h3 : ¬ (stat dst = .ok ∧ (!force) = true) := by
      intro hh; exact h2 ⟨hh.1, by simpa using hh.2⟩
    simp only [planFileCopy, if_neg h1, if_neg h3]
  · unfold planFileCopy; split_ifs <;> rfl
  · unfold planFileCopy; split_ifs <;> rfl
  · intro stat1 h1 h2
    unfold planFileCopy
    by_cases a : stat src = .notExist
    · rw [if_pos a, if_pos (h1.mpr a)]
    · rw [if_neg a, if_neg (fun hh => a (h1.mp hh))]
      by_cases b : stat dst = .ok
      · simp only [b, h2.mpr b]
      · have b1 : ¬ stat1 dst = .ok := fun hh => b (h2.mp hh)
        simp only [b, b1, false_and, if_false]

/-- Witness of C20: an existing source and an existing destination without `force`. -/
theorem C20_planFileCopy_witness :
    (planFileCopy (fun _ => .ok) "src/AGENTS.md" "dst/AGENTS.md" false).Typ
      = .ActionBackup :=
  (C20_planFileCopy (fun _ => .ok) "src/AGENTS.md" "dst/AGENTS.md" false).2.1
    (by decide) rfl rfl

/-! ## `LinesSince` with a negative offset -/

theorem wrap64_overflow {x : Int} (h0 : 2 ^ 63 ≤ x) (h1 : x < 2 ^ 64) :
    wrap64 x = x - 2 ^ 64 := by
  unfold wrap64
  norm_num at h0 h1 ⊢
  omega

theorem RingInv.linesSince_overflow {c : Nat} {b : LogBuffer} {as : List String}
    (h : RingInv c b as) (hn : (as.length : Int) < 2 ^ 63) (k : Int) (hk : -2 ^ 63 ≤ k)
    (hov : k + 2 ^ 63 ≤ as.length) : b.LinesSince k = none := by
  obtain ⟨hcap, hc, htot, hlen, hget⟩ := h
  norm_num at hn hk hov
  have hge : ¬ k ≥ b.total := by rw [htot]; omega
  have hw : wrap64 (b.total - k) = b.total - k - 2 ^ 64 := by
    apply wrap64_overflow <;> rw [htot] <;> norm_num <;> omega
  have hneg : b.total - k - 2 ^ 64 < 0 := by rw [htot]; norm_num; omega
  have hnot : ¬ b.total - k - 2 ^ 64 > (b.lines.length : Int) := by omega
  simp only [LogBuffer.LinesSince, hge, if_false, hw, hnot, hneg, if_true]

/-- Evaluation for C26 at the failing input.  On a buffer of capacity 3 that holds one line,
`LinesSince(0)` returns that line, `LinesSince(-1)` returns the same line, and
`LinesSince(math.MinInt64)` panics: `total - offset` wraps around to a negative `newCount`,
which `make([]string, newCount)` rejects.  The status endpoint passes such an offset on from
the query parameter `log_offset`. -/
theorem C26_linesSince_min_offset :
    (LogBuffer.mk [] 3 0 0).run [.append "a"] = some (LogBuffer.mk ["a"] 3 1 0) ∧
    (LogBuffer.mk ["a"] 3 1 0).LinesSince 0 = some ⟨some ["a"], 1, 0⟩ ∧
    (LogBuffer.mk ["a"] 3 1 0).LinesSince (-1) = some ⟨some ["a"], 1, 0⟩ ∧
    (LogBuffer.mk ["a"] 3 1 0).LinesSince (-2 ^ 63) = none ∧
    atoi "-9223372036854775808" = some (-2 ^ 63) ∧
    appendLogData (LogBuffer.mk ["a"] 3 1 1) (LogBuffer.mk ["a"] 3 1 1)
      "-9223372036854775808" "1" = none := by
  refine ⟨by decide, by decide, by decide, by decide, by decide, by decide⟩

/-! ## The default model after a login -/

/-- Evaluation for C29 at the failing input.  The configuration has one OpenAI model, named
`gpt-4o`; after the login with OpenAI that entry carries `oauth`, nothing is appended, and
the default model name is `gpt-5.2`, which no entry of `model_list` has. -/
theorem C29_default_model_dangling :
    (updateConfigAfterLogin
      ⟨⟨⟨"", []⟩, ⟨"", []⟩, ⟨"", []⟩, []⟩, [⟨"gpt-4o", "openai/gpt-4o", "", []⟩], "gpt-4o"⟩
      "openai").ModelList = [⟨"gpt-4o", "openai/gpt-4o", "oauth", []⟩] ∧
    (updateConfigAfterLogin
      ⟨⟨⟨"", []⟩, ⟨"", []⟩, ⟨"", []⟩, []⟩, [⟨"gpt-4o", "openai/gpt-4o", "", []⟩], "gpt-4o"⟩
      "openai").AgentsDefaultsModelName = "gpt-5.2" ∧
    ∀ m ∈ (updateConfigAfterLogin
      ⟨⟨⟨"", []⟩, ⟨"", []⟩, ⟨"", []⟩, []⟩, [⟨"gpt-4o", "openai/gpt-4o", "", []⟩], "gpt-4o"⟩
      "openai").ModelList, m.ModelName ≠ "gpt-5.2" := by
  refine ⟨by decide, by decide, by decide⟩

/-! ## The provider predicates -/

theorem HasPrefix_iff (s pre : String) :
    HasPrefix s pre = true ↔ ∃ rest : String, s = pre ++ rest := by
  unfold HasPrefix
  rw [List.isPrefixOf_iff_prefix]
  constructor
  · rintro ⟨t, ht⟩
    refine ⟨String.mk t, ?_⟩
    apply String.ext
    rw [String.data_append]
    exact ht.symm
  · rintro ⟨rest, rfl⟩
    exact ⟨rest.toList, by simp [String.toList, String.data_append]⟩

theorem HasPrefix_disjoint (p q : String) (h1 : HasPrefix q p = false)
    (h2 : HasPrefix p q = false) (m : String) :
    ¬ (HasPrefix m p = true ∧ HasPrefix m q = true) := by
  rintro ⟨hp, hq⟩
  unfold HasPrefix at hp hq h1 h2
  rw [List.isPrefixOf_iff_prefix] at hp hq
  rcases List.prefix_or_prefix_of_prefix hp hq with h | h
  · have := List.isPrefixOf_iff_prefix.mpr h
    rw [h1] at this; cases this
  · have := List.isPrefixOf_iff_prefix.mpr h
    rw [h2] at this; cases this

theorem isOpenAIModel_iff (m : String) :
    isOpenAIModel m = true ↔ (m = "openai" ∨ HasPrefix m "openai/" = true) := by
  simp [isOpenAIModel]

theorem isAnthropicModel_iff (m : String) :
    isAnthropicModel m = true ↔ (m = "anthropic" ∨ HasPrefix m "anthropic/" = true) := by
  simp [isAnthropicModel]

theorem isAntigravityModel_iff (m : String) :
    isAntigravityModel m = true ↔
      (m = "antigravity" ∨ m = "google-antigravity" ∨ HasPrefix m "antigravity/" = true ∨
        HasPrefix m "google-antigravity/" = true) := by
  simp [isAntigravityModel, or_assoc]

/-- C25: `isOpenAIModel(m)` holds exactly when `m` is `openai` or starts with `openai/`,
`isAnthropicModel(m)` exactly when `m` is `anthropic` or starts with `anthropic/`, and
`isAntigravityModel(m)` exactly when `m` is `antigravity` or `google-antigravity` or starts
with `antigravity/` or `google-antigravity/`; no model string satisfies two of the three
predicates. -/
theorem C25_provider_predicates (m : String) :
    (isOpenAIModel m = true ↔ (m = "openai" ∨ ∃ rest : String, m = "openai/" ++ rest)) ∧
    (isAnthropicModel m = true ↔
      (m = "anthropic" ∨ ∃ rest : String, m = "anthropic/" ++ rest)) ∧
    (isAntigravityModel m = true ↔
      (m = "antigravity" ∨ m = "google-antigravity" ∨
        (∃ rest : String, m = "antigravity/" ++ rest) ∨
        ∃ rest : String, m = "google-antigravity/" ++ rest)) ∧
    ¬ (isOpenAIModel m = true ∧ isAnthropicModel m = true) ∧
    ¬ (isOpenAIModel m = true ∧ isAntigravityModel m = true) ∧
    ¬ (isAnthropicModel m = true ∧ isAntigravityModel m = true) := by
  refine ⟨?_, ?_, ?_, ?_, ?_, ?_⟩
  · rw [isOpenAIModel_iff, HasPrefix_iff]
  · rw [isAnthropicModel_iff, HasPrefix_iff]
  · rw [isAntigravityModel_iff, HasPrefix_iff, HasPrefix_iff]
  · rw [isOpenAIModel_iff, isAnthropicModel_iff]
    rintro ⟨h1 | h1, h2 | h2⟩
    · subst h1; exact absurd h2 (by decide)
    · subst h1; exact absurd h2 (by decide)
    · subst h2; exact absurd h1 (by decide)
    · exact HasPrefix_disjoint _ _ (by decide) (by decide) m ⟨h1, h2⟩
  · rw [isOpenAIModel_iff, isAntigravityModel_iff]
    rintro ⟨h1 | h1, h2 | h2 | h2 | h2⟩
    · subst h1; exact absurd h2 (by decide)
    · subst h1; exact absurd h2 (by decide)
    · subst h1; exact absurd h2 (by decide)
    · subst h1; exact absurd h2 (by decide)
    · subst h2; exact absurd h1 (by decide)
    · subst h2; exact absurd h1 (by decide)
    · exact HasPrefix_disjoint _ _ (by decide) (by decide) m ⟨h1, h2⟩
    · exact HasPrefix_disjoint _ _ (by decide) (by decide) m ⟨h1, h2⟩
  · rw [isAnthropicModel_iff, isAntigravityModel_iff]
    rintro ⟨h1 | h1, h2 | h2 | h2 | h2⟩
    · subst h1; exact absurd h2 (by decide)
    · subst h1; exact absurd h2 (by decide)
    · subst h1; exact absurd h2 (by decide)
    · subst h1; exact absurd h2 (by decide)
    · subst h2; exact absurd h1 (by decide)
    · subst h2; exact absurd h1 (by decide)
    · exact HasPrefix_disjoint _ _ (by decide) (by decide) m ⟨h1, h2⟩
    · exact HasPrefix_disjoint _ _ (by decide) (by decide) m ⟨h1, h2⟩

/-! ## The OpenClaw conversion -/

/-- Evaluation for C23 at the failing input.  For the primary model
`openrouter/anthropic/claude-3`, which is `p + "/" + m` with `p = openrouter` and
`m = anthropic/claude-3`, `GetDefaultModel` returns the model `anthropic`: `strings.Split`
cuts at every `/` and the second piece only is returned.  For `openai/gpt-4` it returns
`(openai, gpt-4)`. -/
theorem C23_default_model_truncated :
    (OpenClawConfig.mk
      (some ⟨some ⟨some ⟨"", some "openrouter/anthropic/claude-3", []⟩, none⟩⟩)
      none).GetDefaultModel ToLowerASCII = ("openrouter", "anthropic") ∧
    (OpenClawConfig.mk (some ⟨some ⟨some ⟨"", some "openai/gpt-4", []⟩, none⟩⟩)
      none).GetDefaultModel ToLowerASCII = ("openai", "gpt-4") ∧
    (OpenClawConfig.mk none none).GetDefaultModel ToLowerASCII
      = ("anthropic", "claude-sonnet-4-20250514") := by
  refine ⟨by decide, by decide, by decide⟩

/-- Evaluation for C24 at the failing input.  On a configuration without a channels section
`IsChannelEnabled` panics for each of the five names that it knows (it dereferences the `nil`
pointer `c.Channels`), and returns false for another name; with a channels section it returns
a result, false exactly for a block that is present with `enabled` false. -/
theorem C24_isChannelEnabled_no_channels :
    (∀ name, name = "telegram" ∨ name = "discord" ∨ name = "slack" ∨ name = "whatsapp" ∨
        name = "feishu" →
      (OpenClawConfig.mk none none).IsChannelEnabled name = none) ∧
    (OpenClawConfig.mk none none).IsChannelEnabled "line" = some false ∧
    (OpenClawConfig.mk none
      (some ⟨some ⟨none, [], some true⟩, some ⟨none, [], some false⟩, none, none, none, none,
        none, none, false, false, false, false, false, false⟩)).IsChannelEnabled "discord"
      = some false ∧
    (OpenClawConfig.mk none
      (some ⟨some ⟨none, [], some true⟩, some ⟨none, [], some false⟩, none, none, none, none,
        none, none, false, false, false, false, false, false⟩)).IsChannelEnabled "slack"
      = some true := by
  refine ⟨?_, by decide, by decide, by decide⟩
  rintro name (h | h | h | h | h) <;> subst h <;> decide

/-- Evaluation for C27 at the failing input.  `ToStandardChannels` gives every channel of the
standard configuration an empty `allow_from`, whatever the allow-list of the input channel
is; for a Telegram channel that allows `user1` only, the result allows everybody. -/
theorem C27_allow_from_dropped :
    (∀ c : ChannelsConfig,
      c.ToStandardChannels.WhatsApp.AllowFrom = [] ∧
      c.ToStandardChannels.Telegram.AllowFrom = [] ∧
      c.ToStandardChannels.Feishu.AllowFrom = [] ∧
      c.ToStandardChannels.Discord.AllowFrom = [] ∧
      c.ToStandardChannels.MaixCam.AllowFrom = [] ∧
      c.ToStandardChannels.QQ.AllowFrom = [] ∧
      c.ToStandardChannels.DingTalk.AllowFrom = [] ∧
      c.ToStandardChannels.Slack.AllowFrom = [] ∧
      c.ToStandardChannels.LINE.AllowFrom = []) ∧
    ({ ChannelsConfig.zero with
        Telegram := ⟨true, "test-token", "", ["user1"]⟩ }.ToStandardChannels).Telegram
      = ⟨true, "test-token", "", []⟩ :=
  ⟨fun _ => ⟨rfl, rfl, rfl, rfl, rfl, rfl, rfl, rfl, rfl⟩, by decide⟩

theorem convertChannels_qq (c : OpenClawConfig) (ch : OpenClawChannels) (q : OpenClawQQConfig)
    (h : c.Channels = some ch) (hq : ch.QQ = some q) :
    c.convertChannels.1.QQ.Enabled = true := by
  simp only [OpenClawConfig.convertChannels, h, hq]
  have hs : supportedChannels "qq" = true := by decide
  simp only [hs, if_true]
  repeat' split
  all_goals rfl

/-- Evaluation for C28 at the failing input.  The source has the blocks `qq`, `dingtalk` and
`maixcam`, each with `enabled` explicitly false, and a `telegram` block with `enabled` false;
the converted Telegram channel is disabled, and the converted QQ, DingTalk and MaixCam
channels are enabled: for these three `convertChannels` writes `Enabled: true` without
reading the source's field.  Every `qq` block is converted to an enabled channel. -/
theorem C28_enabled_false_ignored :
    (OpenClawConfig.mk none
      (some ⟨some ⟨none, [], some false⟩, none, none, none, none,
        some ⟨none, none, [], some false⟩, some ⟨none, none, [], some false⟩,
        some ⟨none, none, [], some false⟩,
        false, false, false, false, false, false⟩)).convertChannels.1.Telegram.Enabled
      = false ∧
    (OpenClawConfig.mk none
      (some ⟨some ⟨none, [], some false⟩, none, none, none, none,
        some ⟨none, none, [], some false⟩, some ⟨none, none, [], some false⟩,
        some ⟨none, none, [], some false⟩,
        false, false, false, false, false, false⟩)).convertChannels.1.QQ.Enabled = true ∧
    (OpenClawConfig.mk none
      (some ⟨some ⟨none, [], some false⟩, none, none, none, none,
        some ⟨none, none, [], some false⟩, some ⟨none, none, [], some false⟩,
        some ⟨none, none, [], some false⟩,
        false, false, false, false, false, false⟩)).convertChannels.1.DingTalk.Enabled
      = true ∧
    (OpenClawConfig.mk none
      (some ⟨some ⟨none, [], some false⟩, none, none, none, none,
        some ⟨none, none, [], some false⟩, some ⟨none, none, [], some false⟩,
        some ⟨none, none, [], some false⟩,
        false, false, false, false, false, false⟩)).convertChannels.1.MaixCam.Enabled
      = true ∧
    (∀ (c : OpenClawConfig) (ch : OpenClawChannels) (q : OpenClawQQConfig),
      c.Channels = some ch → ch.QQ = some q → c.convertChannels.1.QQ.Enabled = true) :=
  ⟨by decide, by decide, by decide, by decide, convertChannels_qq⟩

/-- Evaluation for C30 at the failing input.  The source's `models.json` configures
`anthropic` and `openai`, each with an API key, and `zhipu` without one; the default model is
an Anthropic model.  `model_list` starts with the default entry, with Anthropic's key and
base URL, and has an entry for `zhipu`, but none for `openai`: the loop skips every provider
whose API key is not empty. -/
theorem C30_provider_with_key_dropped :
    ((OpenClawConfig.mk
      (some ⟨some ⟨some ⟨"", some "anthropic/claude-sonnet-4-20250514", []⟩, none⟩⟩)
      none).ConvertToPicoClaw ToLowerASCII
      (some [("anthropic", some ⟨"https://api.anthropic.com", "anthropic", "sk-ant"⟩),
        ("openai", some ⟨"https://api.openai.com", "openai", "sk-openai"⟩),
        ("zhipu", some ⟨"https://open.bigmodel.cn/api/paas/v4", "openai", ""⟩)])).ModelList
      = [⟨"claude-sonnet-4-20250514", "anthropic/claude-sonnet-4-20250514",
          "https://api.anthropic.com", "sk-ant", ""⟩,
        ⟨"zhipu", "zhipu/zhipu", "https://open.bigmodel.cn/api/paas/v4", "", ""⟩] ∧
    (∀ (provider : String) (providerConfigs : List (String × OCProviderConfig)),
      ∀ m ∈ otherProviders provider providerConfigs, m.APIKey = "") := by
  refine ⟨by decide, ?_⟩
  intro provider providerConfigs
  induction providerConfigs with
  | nil => intro m hm; simp [otherProviders] at hm
  | cons kv rest ih =>
    obtain ⟨provName, provCfg⟩ := kv
    intro m hm
    unfold otherProviders at hm
    split_ifs at hm with h1 h2
    · exact ih m hm
    · exact ih m hm
    · rcases List.mem_cons.mp hm with h | h
      · subst h; simpa using h2
      · exact ih m h

/-! ## The migration run -/

theorem Plan_both_only (env : RunEnv) (opts : Options) (targetHome : String)
    (hh : env.handlerFound = true) (hc : opts.ConfigOnly = true)
    (hw : opts.WorkspaceOnly = true) : Plan env opts targetHome = .ok ([], []) := by
  simp [Plan, hh, hc, hw]

/-- Evaluation for C21 at the failing input.  With `ConfigOnly` and `Refresh` set and
`WorkspaceOnly` not set, on an installation whose handler and homes resolve, `Run` returns no
error: the check of the two flags comes before `Refresh` sets `WorkspaceOnly`, so it passes,
and `Plan` then runs with both flags in effect and returns an empty plan, which is passed to
`Execute`.  With `WorkspaceOnly` set directly, `Run` returns the error and calls neither
`Plan` nor `Execute`. -/
theorem C21_refresh_with_config_only :
    Run ⟨true, .ok "/home/u/.openclaw", .ok "/home/u/.picoclaw", .ok,
        .ok "/home/u/.openclaw/openclaw.json", .ok "/home/u/.openclaw/workspace", .ok,
        fun _ => .ok [⟨.ActionCopy, "AGENTS.md", "AGENTS.md", "copy file"⟩], true,
        fun a b => a ++ "/" ++ b⟩
      ⟨false, true, false, false, true, "openclaw", "", ""⟩
      = ⟨none, some ([], []), some []⟩ ∧
    (∀ (env : RunEnv) (opts : Options), env.handlerFound = true → opts.ConfigOnly = true →
      opts.Refresh = true → opts.WorkspaceOnly = false →
      (∃ sourceHome, env.GetSourceHome = .ok sourceHome) →
      (∃ targetHome, env.ResolveTargetHome = .ok targetHome) →
      env.statSourceHome ≠ .notExist →
      (Run env opts).err = none ∧ (Run env opts).planned = some ([], [])) ∧
    (∀ (env : RunEnv) (opts : Options), env.handlerFound = true → opts.ConfigOnly = true →
      opts.WorkspaceOnly = true →
      Run env opts
        = ⟨some "--config-only and --workspace-only are mutually exclusive", none, none⟩) := by
  refine ⟨by decide, ?_, ?_⟩
  · rintro env opts hh hc hr hw ⟨sourceHome, hs⟩ ⟨targetHome, ht⟩ hstat
    simp only [Run, hh, hc, hw, hr, hs, ht, hstat, Bool.not_true, Bool.and_false,
      Bool.false_eq_true, if_false, if_true]
    rw [Plan_both_only env _ targetHome hh rfl rfl]
    simp only
    split_ifs <;> exact ⟨rfl, rfl⟩
  · intro env opts hh hc hw
    simp [Run, hh, hc, hw]

/-! ## The execution of a backup action -/

theorem target_ne_bak (target : String) : target ≠ target ++ ".bak" := by
  intro h
  have := congrArg String.length h
  rw [String.length_append] at this
  have h4 : ".bak".length = 4 := by decide
  omega

theorem CopyFile_ok {fs fs1 : Files} {fault : CopyFault} {src dst : String}
    (h : CopyFile fs fault src dst = (none, fs1)) :
    (∃ content, fs src = some content ∧
      fs1 dst = some (if src = dst then "" else content)) ∧
    ∀ p, p ≠ dst → fs1 p = fs p := by
  unfold CopyFile at h
  cases hsrc : fs src with
  | none => simp [hsrc] at h
  | some content =>
    simp only [hsrc] at h
    cases fault with
    | none =>
      simp only [Prod.mk.injEq, true_and] at h
      subst h
      refine ⟨⟨content, rfl, ?_⟩, ?_⟩
      · by_cases hsd : src = dst
        · subst hsd; simp [Files.write]
        · simp [Files.write, hsd, hsrc]
      · intro p hp
        simp [Files.write, hp]
    | openSrc => simp at h
    | openDst => simp at h
    | copy written => simp at h

theorem CopyFile_error {fs fs1 : Files} {fault : CopyFault} {src dst : String} {e : String}
    (h : CopyFile fs fault src dst = (some e, fs1)) : ∀ p, p ≠ dst → fs1 p = fs p := by
  unfold CopyFile at h
  cases hsrc : fs src with
  | none =>
    simp only [hsrc, Prod.mk.injEq] at h
    intro p _; rw [← h.2]
  | some content =>
    simp only [hsrc] at h
    cases fault with
    | none => simp at h
    | openSrc => simp only [Prod.mk.injEq] at h; intro p _; rw [← h.2]
    | openDst => simp only [Prod.mk.injEq] at h; intro p _; rw [← h.2]
    | copy written =>
      simp only [Prod.mk.injEq] at h
      intro p hp
      rw [← h.2]
      simp [Files.write, hp]

theorem CopyFile_cases (fs : Files) (fault : CopyFault) (src dst : String) :
    (∃ fs1, CopyFile fs fault src dst = (none, fs1)) ∨
      ∃ e fs1, CopyFile fs fault src dst = (some e, fs1) := by
  rcases h : CopyFile fs fault src dst with ⟨_ | e, fs1⟩
  · exact Or.inl ⟨fs1, rfl⟩
  · exact Or.inr ⟨e, fs1, rfl⟩

theorem copyStep_cases (r : Result) (fs : Files) (a : Action) (env : StepEnv) :
    (∃ fs2, CopyFile fs env.copyFault a.Source a.Target = (none, fs2) ∧
      copyStep r fs a env = ({ r with FilesCopied := r.FilesCopied + 1 }, fs2)) ∨
    (∃ e fs2, copyStep r fs a env = ({ r with Errors := r.Errors ++ [e] }, fs2) ∧
      ∀ p, p ≠ a.Target → fs2 p = fs p) := by
  unfold copyStep
  cases hm : env.mkdirFails
  · rcases CopyFile_cases fs env.copyFault a.Source a.Target with ⟨fs2, h⟩ | ⟨e, fs2, h⟩
    · left
      exact ⟨fs2, h, by simp only [Bool.false_eq_true, if_false, h]⟩
    · right
      exact ⟨"copy " ++ a.Source ++ ": " ++ e, fs2,
        by simp only [Bool.false_eq_true, if_false, h], CopyFile_error h⟩
  · right
    exact ⟨"mkdir " ++ a.Target, fs, by simp only [if_true], fun _ _ => rfl⟩

theorem append_singleton_ne {l : List String} {x : String} : l ++ [x] ≠ l := by
  intro h
  have := congrArg List.length h
  simp at this

/-- C22: for a Backup action, in the loop of `Execute`: when no error is recorded, the file
`target + ".bak"` holds the previous content of the target, the target holds the content of
the source (the content that the source had before the action, when the source is neither
the target nor the backup file), and `BackupsCreated` and `FilesCopied` have each grown by 1;
when the copy that writes the backup fails, the target is as before, exactly one error is
recorded and the two counters are as before; and whenever the target is not as before, the
backup file holds its previous content. -/
theorem C22_backup_before_overwrite (r : Result) (fs : Files) (a : Action) (env : StepEnv)
    (ha : a.Typ = .ActionBackup) :
    ((executeAction r fs a env).1.Errors = r.Errors →
      (fs a.Target).isSome = true ∧
      (executeAction r fs a env).2 (a.Target ++ ".bak") = fs a.Target ∧
      (executeAction r fs a env).2 a.Target = (executeAction r fs a env).2 a.Source ∧
      (a.Source ≠ a.Target → a.Source ≠ a.Target ++ ".bak" →
        (executeAction r fs a env).2 a.Target = fs a.Source) ∧
      (executeAction r fs a env).1.BackupsCreated = r.BackupsCreated + 1 ∧
      (executeAction r fs a env).1.FilesCopied = r.FilesCopied + 1) ∧
    ((∃ e fs1, CopyFile fs env.backupFault a.Target (a.Target ++ ".bak") = (some e, fs1)) →
      (executeAction r fs a env).2 a.Target = fs a.Target ∧
      (executeAction r fs a env).1.Errors.length = r.Errors.length + 1 ∧
      (executeAction r fs a env).1.BackupsCreated = r.BackupsCreated ∧
      (executeAction r fs a env).1.FilesCopied = r.FilesCopied) ∧
    ((executeAction r fs a env).2 a.Target ≠ fs a.Target →
      (executeAction r fs a env).2 (a.Target ++ ".bak") = fs a.Target) := by
  have hne := target_ne_bak a.Target
  rcases CopyFile_cases fs env.backupFault a.Target (a.Target ++ ".bak") with
    ⟨fs1, hb⟩ | ⟨e, fs1, hb⟩
  · -- the backup is written
    obtain ⟨⟨content, hc1, hc2⟩, hc3⟩ := CopyFile_ok hb
    rw [if_neg hne] at hc2
    have hexec : executeAction r fs a env
        = copyStep { r with BackupsCreated := r.BackupsCreated + 1 } fs1 a env := by
      simp only [executeAction, ha, hb]
    have hbak : fs1 (a.Target ++ ".bak") = fs a.Target := by rw [hc2, hc1]
    have htgt : fs1 a.Target = fs a.Target := hc3 _ hne
    rw [hexec]
    rcases copyStep_cases { r with BackupsCreated := r.BackupsCreated + 1 } fs1 a env with
      ⟨fs2, hcopy, hstep⟩ | ⟨e, fs2, hstep, hkeep⟩
    · rw [hstep]
      dsimp only
      obtain ⟨⟨c2, hd1, hd2⟩, hd3⟩ := CopyFile_ok hcopy
      have hbak2 : fs2 (a.Target ++ ".bak") = fs a.Target := by
        rw [hd3 _ (Ne.symm hne), hbak]
      refine ⟨fun _ => ⟨by rw [hc1]; rfl, hbak2, ?_, ?_, rfl, rfl⟩, ?_, fun _ => hbak2⟩
      · by_cases hst : a.Source = a.Target
        · rw [hst]
        · simp only [if_neg hst] at hd2
          rw [hd2, hd3 _ hst, hd1]
      · intro hst hsb
        simp only [if_neg hst] at hd2
        rw [hd2, ← hd1, hc3 _ hsb]
      · rintro ⟨e, fs1', hb'⟩
        rw [hb] at hb'
        cases hb'
    · rw [hstep]
      dsimp only
      have hbak2 : fs2 (a.Target ++ ".bak") = fs a.Target := by
        rw [hkeep _ (Ne.symm hne), hbak]
      refine ⟨fun h => absurd h append_singleton_ne, ?_, fun _ => hbak2⟩
      rintro ⟨e', fs1', hb'⟩
      rw [hb] at hb'
      cases hb'
  · -- the backup is not written
    have hexec : executeAction r fs a env
        = ({ r with Errors := r.Errors ++ ["backup " ++ a.Target ++ ": " ++ e] }, fs1) := by
      simp only [executeAction, ha, hb]
    have htgt : fs1 a.Target = fs a.Target := CopyFile_error hb _ hne
    rw [hexec]
    dsimp only
    refine ⟨fun h => absurd h append_singleton_ne, fun _ => ⟨htgt, by simp, rfl, rfl⟩, ?_⟩
    intro h
    exact absurd htgt h

/-- Witness of C22: the target holds `target`, the source holds `source`; after the Backup
action the backup file holds `target`. -/
theorem C22_backup_before_overwrite_witness :
    (executeAction Result.zero
      (fun p => if p = "source.txt" then some "source"
        else if p = "target.txt" then some "target" else none)
      ⟨.ActionBackup, "source.txt", "target.txt", "backup and overwrite"⟩
      ⟨fun fs => (none, fs), false, .none, .none⟩).2 ("target.txt" ++ ".bak")
      = some "target" :=
  ((C22_backup_before_overwrite Result.zero
    (fun p => if p = "source.txt" then some "source"
      else if p = "target.txt" then some "target" else none)
    ⟨.ActionBackup, "source.txt", "target.txt", "backup and overwrite"⟩
    ⟨fun fs => (none, fs), false, .none, .none⟩ rfl).1 (by decide)).2.1

end Picoclaw
